import Mathlib

/-!
Verification of the LinkScope session engine, discovery ranking, fallback
scoring, trigger scheduling and persistence layer, shallowly embedded from
the TypeScript sources (src/bot/engine.ts, src/bot/actions.ts,
src/ai/scorer.ts, src/scheduler/jobs.ts, src/db/sqlite.ts).
-/

namespace LinkScope

/-! ## Generic list and string machinery -/

/-- Membership-preserving stable insertion used to model the JavaScript
stable comparator sort. The element x is placed before the first element y
such that x does not precede y fails, i.e. before the first y with
pre x y = true. -/
def orderedInsert (pre : α → α → Bool) (x : α) : List α → List α
  | [] => [x]
  | y :: ys => if pre x y then x :: y :: ys else y :: orderedInsert pre x ys

/-- Stable sort by the given precedence test, modelling a stable
comparator sort as guaranteed by the JavaScript runtime. -/
def sortByPre (pre : α → α → Bool) : List α → List α
  | [] => []
  | x :: xs => orderedInsert pre x (sortByPre pre xs)

/-- Does the character list s start with the character list pat. -/
def startsWithL : List Char → List Char → Bool
  | _, [] => true
  | [], _ :: _ => false
  | a :: as, b :: bs => a == b && startsWithL as bs

/-- Substring containment on character lists, modelling the JavaScript
String.prototype.includes test. -/
def containsL : List Char → List Char → Bool
  | [], pat => pat.isEmpty
  | a :: as, pat => startsWithL (a :: as) pat || containsL as pat

/-- Substring containment on strings (JavaScript includes). -/
def strIncludes (s pat : String) : Bool := containsL s.data pat.data

/-- Helper for splitWs: the Bool flag records whether the scan is inside a
whitespace run; cur accumulates the current fragment reversed. -/
def splitWsGo : List Char → Bool → List Char → List String
  | [], true, _ => [""]
  | [], false, cur => [String.mk cur.reverse]
  | c :: rest, true, cur =>
    if c.isWhitespace then splitWsGo rest true cur
    else splitWsGo rest false [c]
  | c :: rest, false, cur =>
    if c.isWhitespace then String.mk cur.reverse :: splitWsGo rest true []
    else splitWsGo rest false (c :: cur)

/-- Split a string on maximal whitespace runs, modelling the JavaScript
regular-expression split on one or more whitespace characters: interior
runs produce no empty fragments, while leading or trailing whitespace
produces a leading or trailing empty fragment. -/
def splitWs (s : String) : List String := splitWsGo s.data false []

/-- Strict lexicographic order on character lists by code point, modelling
the default JavaScript string comparison used by Array.prototype.sort. -/
def lexLt : List Char → List Char → Bool
  | [], [] => false
  | [], _ :: _ => true
  | _ :: _, [] => false
  | a :: as, b :: bs =>
    if a.toNat < b.toNat then true
    else if b.toNat < a.toNat then false
    else lexLt as bs

/-- Reflexive lexicographic order on strings. -/
def strLexLe (s t : String) : Bool := !lexLt t.data s.data

/-- JavaScript template-literal coercion of a possibly missing string
field: an absent (undefined) field renders as the text undefined. -/
def jsStr : Option String → String
  | some s => s
  | none => "undefined"

/-- ASCII lower-casing of one character (the sources only compare ASCII
keywords, selectors and day names). -/
def lcChar (c : Char) : Char :=
  if 65 ≤ c.toNat && c.toNat ≤ 90 then Char.ofNat (c.toNat + 32) else c

/-- Lower-case a string, modelling JavaScript toLowerCase on the ASCII
texts the sources compare. -/
def lowerStr (s : String) : String := String.mk (s.data.map lcChar)

/-- Helper for strSplitOn: scans for the next occurrence of the separator
(sep0 followed by sepRest); skip counts separator characters still to be
consumed after a match, cur accumulates the current fragment reversed. -/
def splitOnGo (sep0 : Char) (sepRest : List Char) :
    List Char → Nat → List Char → List (List Char)
  | [], _, cur => [cur.reverse]
  | _ :: rest, skip + 1, cur => splitOnGo sep0 sepRest rest skip cur
  | c :: rest, 0, cur =>
    if startsWithL (c :: rest) (sep0 :: sepRest) then
      cur.reverse :: splitOnGo sep0 sepRest rest sepRest.length []
    else
      splitOnGo sep0 sepRest rest 0 (c :: cur)

/-- Split a string at every occurrence of a non-empty separator string,
modelling the JavaScript String.prototype.split with a string argument. -/
def strSplitOn (s sep : String) : List String :=
  match sep.data with
  | [] => [s]
  | c :: cs => (splitOnGo c cs s.data 0 []).map String.mk

/-- Trim leading and trailing whitespace, modelling the JavaScript
String.prototype.trim. -/
def trimStr (s : String) : String :=
  String.mk (((s.data.dropWhile Char.isWhitespace).reverse.dropWhile
    Char.isWhitespace).reverse)

/-- Numeric parse of a string as used by the sources through the
JavaScript Number conversion, modelled on its unsigned decimal domain:
surrounding whitespace is ignored, an empty remainder parses as zero,
a run of decimal digits parses as its value, and anything else is NaN
(represented by none). -/
def jsNumber (s : String) : Option Nat :=
  let core := (s.data.dropWhile Char.isWhitespace).reverse.dropWhile
    Char.isWhitespace |>.reverse
  if core.isEmpty then some 0
  else if core.all Char.isDigit then
    some (core.foldl (fun n c => n * 10 + (c.toNat - 48)) 0)
  else none

/-- Join a list of strings with a separator, modelling the JavaScript
Array.prototype.join. -/
def joinSep (sep : String) : List String → String
  | [] => ""
  | [x] => x
  | x :: y :: rest => x ++ sep ++ joinSep sep (y :: rest)

/-! ## Data model (src/bot/scraper.ts ProfileData, src/ai/scorer.ts) -/

/-- Scraped profile snapshot, from the ProfileData interface in
src/bot/scraper.ts (experience, skills and raw omitted: no claim reads
them). Counts are natural numbers. -/
structure ProfileData where
  linkedin_id : String
  linkedin_url : String
  name : String
  headline : Option String
  company : Option String
  location : Option String
  about : Option String
  connection_count : Option Nat
  mutual_connections : Option Nat
deriving DecidableEq, Repr

/-- Scoring result, from the ScoreResult interface in src/ai/scorer.ts. -/
structure ScoreResult where
  score : Nat
  reason : String
  category : String
deriving DecidableEq, Repr

/-! ## Fallback scoring (fallbackScoring in src/ai/scorer.ts) -/

/-- One pass of the keyword loop in fallbackScoring: threads the running
score together with the accumulated reason fragments. -/
def fallbackKeywordFold (searchText : String) (acc : Nat × List String) (k : String) :
    Nat × List String :=
  if k ≠ "" && strIncludes searchText k then
    (acc.1 + 15, acc.2 ++ ["Matches: " ++ k])
  else acc

/-- Deterministic keyword-overlap fallback scoring, from fallbackScoring in
src/ai/scorer.ts: base 50, +15 per comma-separated keyword found in the
lower-cased headline/about/company text, +10 for more than five mutual
connections, +5 for more than five hundred connections, capped at 100;
category high at 75, medium at 50, low below. -/
def fallbackScoring (profile : ProfileData) (keywords : String) : ScoreResult :=
  let keywordList := (strSplitOn (lowerStr keywords) ",").map trimStr
  let searchText :=
    lowerStr (jsStr profile.headline ++ " " ++ jsStr profile.about ++ " " ++
      jsStr profile.company)
  let base := keywordList.foldl (fallbackKeywordFold searchText) (50, [])
  let withMutual :=
    match profile.mutual_connections with
    | some m =>
      if m > 5 then (base.1 + 10, base.2 ++ [toString m ++ " mutual connections"])
      else base
    | none => base
  let withConn :=
    match profile.connection_count with
    | some c =>
      if c > 500 then (withMutual.1 + 5, withMutual.2 ++ ["Active networker"])
      else withMutual
    | none => withMutual
  let score := min 100 withConn.1
  { score := score
    reason := if withConn.2 = [] then "Base score" else joinSep "; " withConn.2
    category := if score ≥ 75 then "high" else if score ≥ 50 then "medium" else "low" }

/-! ## Discovery (searchPeople in src/bot/actions.ts) -/

/-- One extracted search-result card: href is the profile link attribute
when a link element is present, name and headline are the display texts
(empty when the corresponding element is missing, as in the source). -/
structure Card where
  href : Option String
  name : String
  headline : String
deriving DecidableEq, Repr

/-- A candidate entry accumulated by searchPeople: cleaned absolute URL
together with its computed relevance weight. -/
structure SearchEntry where
  url : String
  relevance : Nat
deriving DecidableEq, Repr

/-- Combined lower-cased display text of a card, as built and compared in
searchPeople. -/
def cardCombined (c : Card) : String := lowerStr (c.name ++ " " ++ c.headline)

/-- Relevance weight of a card, from the loop in searchPeople: +10 for
each entry of the whitespace-split lower-cased query found in the combined
text (a duplicated query term counts once per occurrence), then +20 if the
full lower-cased query appears verbatim. -/
def cardRelevance (kwList : List String) (kwLow : String) (c : Card) : Nat :=
  (kwList.foldl
    (fun acc kw => if strIncludes (cardCombined c) kw then acc + 10 else acc) 0) +
  (if strIncludes (cardCombined c) kwLow then 20 else 0)

/-- Absolute profile URL built from a card link, from searchPeople: strip
the query string, then make the link absolute. -/
def cardFullUrl (href : String) : String :=
  let cleanUrl := (strSplitOn href "?").headD ""
  if startsWithL cleanUrl.data "http".data then cleanUrl
  else "https://www.linkedin.com" ++ cleanUrl

/-- Card admission in searchPeople before the relevance filter: a link
element with an href containing the profile path marker. -/
def cardLinkOk (c : Card) : Option String :=
  match c.href with
  | none => none
  | some h => if strIncludes h "/in/" then some h else none

/-- Accumulation pass of searchPeople over the extracted cards: admit each
card with a usable link, discard zero-relevance cards when the query has
more than one term, and drop URLs already collected (first occurrence
wins). The accumulator preserves extraction order. -/
def collectEntries (kwList : List String) (kwLow : String) :
    List Card → List SearchEntry → List SearchEntry
  | [], acc => acc
  | c :: rest, acc =>
    match cardLinkOk c with
    | none => collectEntries kwList kwLow rest acc
    | some h =>
      let relevance := cardRelevance kwList kwLow c
      if relevance = 0 && kwList.length > 1 then
        collectEntries kwList kwLow rest acc
      else
        let fullUrl := cardFullUrl h
        if acc.any (fun e => e.url == fullUrl) then
          collectEntries kwList kwLow rest acc
        else
          collectEntries kwList kwLow rest (acc ++ [⟨fullUrl, relevance⟩])

/-- Precedence test for the descending stable relevance sort in
searchPeople: an earlier entry stays in front of a later one exactly when
its relevance is at least as large. -/
def relPre (a b : SearchEntry) : Bool := b.relevance ≤ a.relevance

/-- Ranked candidate entries for a query, from searchPeople in
src/bot/actions.ts: collect admissible cards in extraction order, then
stable-sort descending by relevance weight. -/
def searchPeopleRanked (keywords : String) (cards : List Card) : List SearchEntry :=
  let kwLow := lowerStr keywords
  let kwList := splitWs kwLow
  sortByPre relPre (collectEntries kwList kwLow cards [])

/-- The URL list searchPeople returns to the session loop. -/
def searchPeople (keywords : String) (cards : List Card) : List String :=
  (searchPeopleRanked keywords cards).map SearchEntry.url

/-- Relevance weight as the specification words it: +10 per DISTINCT query
term found in the combined display text, +20 for a verbatim phrase match.
Stated from the specification for comparison with cardRelevance, which is
the weight the source computes. -/
def specDistinctRelevance (keywords : String) (c : Card) : Nat :=
  let kwLow := lowerStr keywords
  let kwList := (splitWs kwLow).dedup
  10 * kwList.countP (fun kw => strIncludes (cardCombined c) kw) +
  (if strIncludes (cardCombined c) kwLow then 20 else 0)

/-! ## Page actions (src/bot/actions.ts) -/

/-- Abstract state of the profile page as seen by sendConnectionRequest
and followProfile: which controls the selector queries find, and whether
one of the page interactions throws (err). -/
structure ConnPage where
  err : Bool
  connectButton : Bool
  moreButton : Bool
  connectOption : Bool
  addNoteButton : Bool
  sendButton : Bool
  confirmButton : Bool
deriving DecidableEq, Repr

/-- Tail of sendConnectionRequest after a Connect control was clicked:
click Send when present, otherwise the Send-now confirmation when present,
otherwise assume success; every branch reports success. -/
def afterConnectClick (p : ConnPage) : Bool :=
  if p.sendButton then true
  else if p.confirmButton then true
  else true

/-- Connection request outcome, from sendConnectionRequest in
src/bot/actions.ts: any thrown page error is caught and reported as
failure; otherwise click the Connect button, or the Connect option of the
More menu, and report failure when neither is found; after a click the
request is reported sent even when no Send or confirmation control is
located. -/
def sendConnectionRequest (p : ConnPage) : Bool :=
  if p.err then false
  else if p.connectButton then afterConnectClick p
  else if p.moreButton then
    if p.connectOption then afterConnectClick p else false
  else false

/-- Whether the page offered an actual Send or confirmation control, the
observable that distinguishes a confirmed send from the assumed-success
path of sendConnectionRequest. -/
def sendControlFound (p : ConnPage) : Bool := p.sendButton || p.confirmButton

/-- Follow outcome, from followProfile in src/bot/actions.ts: a thrown
page error is caught and reported as failure; otherwise the follow
succeeds exactly when a Follow button is found. -/
def followProfile (followButton followErr : Bool) : Bool :=
  if followErr then false else followButton

/-! ## Session engine (src/bot/engine.ts) and record store (src/db/sqlite.ts) -/

/-- Run configuration, from the SessionConfig interface in
src/bot/engine.ts. Threshold and caps are integers, as in the source. -/
structure SessionConfig where
  keywords : String
  threshold : Int
  maxProfiles : Int
  maxDuration : Int
  minDelay : Nat
  maxDelay : Nat
  enableConnect : Bool
  enableFollow : Bool
deriving DecidableEq, Repr

/-- Mutable run counters, from SessionStats in src/bot/engine.ts. -/
structure Stats where
  profilesViewed : Nat
  connectionsSent : Nat
  followsSent : Nat
deriving DecidableEq, Repr

/-- Terminal and transient run statuses of src/bot/engine.ts. -/
inductive Status where
  | running
  | completed
  | stopped
  | error
deriving DecidableEq, Repr

/-- A row of the profiles table as written by profileQueries.create in
src/db/sqlite.ts: the create statement coerces falsy values to NULL
(a zero score, an empty reason, action or message become NULL) and never
writes the category column, so every created row has category NULL. -/
structure ProfileRow where
  linkedin_id : String
  score : Option Nat
  score_reason : Option String
  category : Option String
  action_taken : Option String
  message_sent : Option String
  session_id : Nat
deriving DecidableEq, Repr

/-- Per-candidate oracle for one pass of the session loop: the URL the
search produced, the outcome of the profile visit (none when viewProfile
throws), the AI scoring outcome (none when the intelligence call fails and
fallbackScoring takes over), the composed outreach message (message
generation has its own internal fallback and never throws), and the page
controls governing the connect and follow actions. -/
structure Candidate where
  url : String
  visit : Option ProfileData
  ai : Option ScoreResult
  message : String
  connPage : ConnPage
  followButton : Bool
  followErr : Bool
deriving DecidableEq, Repr

/-- Engine-side state threaded through the loop: in-memory counters, the
set of linkedin ids present in the profiles table (pre-existing rows and
rows inserted by this run), the rows inserted by this run in insertion
order, and the counters last written to the sessions row. -/
structure RunState where
  stats : Stats
  store : List String
  rows : List ProfileRow
  dbCounters : Stats
deriving DecidableEq, Repr

/-- External identifier extracted from a profile URL in the session loop:
the segment after the first profile path marker, cut at the next slash;
the empty string stands for the absent (falsy) identifier. -/
def idOfUrl (url : String) : String :=
  match (strSplitOn url "/in/").get? 1 with
  | none => ""
  | some s => (strSplitOn s "/").headD ""

/-- Scoring step of the loop, from scoreProfile in src/bot/engine.ts via
src/ai/scorer.ts: the AI result when the intelligence call succeeds,
otherwise the deterministic fallbackScoring of the scraped data. -/
def scoreStep (c : Candidate) (pd : ProfileData) (keywords : String) : ScoreResult :=
  match c.ai with
  | some r => r
  | none => fallbackScoring pd keywords

/-- One completed (non-skipped, successfully visited) pass of the session
loop body, from runSessionLoop in src/bot/engine.ts lines 171 onward:
increment the visited counter, score, apply the action policy, insert the
profile row (category never written, falsy fields coerced to NULL) and
write the updated counters to the sessions row. -/
def stepCandidate (cfg : SessionConfig) (sid : Nat) (st : RunState)
    (c : Candidate) (pd : ProfileData) : RunState :=
  let stats1 : Stats := { st.stats with profilesViewed := st.stats.profilesViewed + 1 }
  let sr := scoreStep c pd cfg.keywords
  let connected :=
    cfg.enableConnect && (cfg.threshold ≤ (sr.score : Int)) &&
      sendConnectionRequest c.connPage
  let stats2 : Stats :=
    if connected then { stats1 with connectionsSent := stats1.connectionsSent + 1 }
    else stats1
  let action1 := if connected then "connected" else "viewed"
  let msg := if connected then c.message else ""
  let followed :=
    cfg.enableFollow && (cfg.threshold ≤ (sr.score : Int)) &&
      followProfile c.followButton c.followErr
  let stats3 : Stats :=
    if followed then { stats2 with followsSent := stats2.followsSent + 1 }
    else stats2
  let action2 :=
    if followed then (if action1 = "connected" then "connected+followed" else "followed")
    else action1
  let row : ProfileRow :=
    { linkedin_id := pd.linkedin_id
      score := if sr.score = 0 then none else some sr.score
      score_reason := if sr.reason = "" then none else some sr.reason
      category := none
      action_taken := if action2 = "" then none else some action2
      message_sent := if msg = "" then none else some msg
      session_id := sid }
  { stats := stats3
    store := st.store ++ [pd.linkedin_id]
    rows := st.rows ++ [row]
    dbCounters := stats3 }

/-- Result of processing one search page in the session loop: either the
loop ended with a terminal status, or the page is exhausted and pagination
continues with the remaining time oracle. -/
inductive PageStep where
  | exit : RunState → Status → PageStep
  | next : RunState → List Nat → PageStep
deriving DecidableEq, Repr

/-- Engine state carried by a page-processing outcome. -/
def PageStep.state : PageStep → RunState
  | .exit st _ => st
  | .next st _ => st

/-- Session loop iterations over the URLs of the current search page, from
runSessionLoop in src/bot/engine.ts. Each iteration samples the elapsed
wall-clock oracle and stops on the visited cap or the time cap (status
completed); otherwise it pops the next URL, skips it when its identifier
already exists in the record store, visits it (a throwing visit aborts the
run with status error, as the loop catch hands the error to stopSession),
and runs the scoring, action and persistence step. -/
def goPage (cfg : SessionConfig) (sid : Nat) :
    RunState → List Candidate → List Nat → PageStep
  | st, [], times => .next st times
  | st, c :: cs, times =>
    if (st.stats.profilesViewed : Int) ≥ cfg.maxProfiles then .exit st .completed
    else if (times.headD 0 : Int) ≥ cfg.maxDuration * 60000 then .exit st .completed
    else
      let pid := idOfUrl c.url
      if pid ≠ "" && st.store.contains pid then
        goPage cfg sid st cs times.tail
      else
        match c.visit with
        | none => .exit st .error
        | some pd => goPage cfg sid (stepCandidate cfg sid st c pd) cs times.tail

/-- Pagination of the session loop, from runSessionLoop lines 145 to 159:
when the current page is exhausted the loop asks nextSearchPage for more;
an exhausted pagination (no further pages) and a fetched empty page both
end the run with status completed, since every boundary check on an empty
supply completes the loop. -/
def goPages (cfg : SessionConfig) (sid : Nat) :
    RunState → List (List Candidate) → List Nat → RunState × Status
  | st, [], _ => (st, .completed)
  | st, [] :: _, _ => (st, .completed)
  | st, (c :: cs) :: ps, times =>
    match goPage cfg sid st (c :: cs) times with
    | .exit st2 s => (st2, s)
    | .next st2 times2 => goPages cfg sid st2 ps times2

/-- The session main loop, from runSessionLoop in src/bot/engine.ts:
process the initial search page, then the lazily fetched further pages. -/
def runLoop (cfg : SessionConfig) (sid : Nat) (st : RunState)
    (urls : List Candidate) (pages : List (List Candidate)) (times : List Nat) :
    RunState × Status :=
  match goPage cfg sid st urls times with
  | .exit st2 s => (st2, s)
  | .next st2 times2 => goPages cfg sid st2 pages times2

/-! ## External stop interleaved with the loop (stopSession in
src/bot/engine.ts, lines 258 to 282) -/

/-- The sessions table row fields stopSession and the loop write, from the
schema in src/db/schema.sql and sessionQueries.update. -/
structure SessionRow where
  status : String
  ended_at : Option Nat
  profiles_viewed : Nat
  connections_sent : Nat
  follows_sent : Nat
deriving DecidableEq, Repr

/-- One observable database write of the engine, in program order: an
update of the sessions row (with the row value written) or an insert into
the profiles table (with the inserted identifier). -/
inductive DBOp where
  | sessionUpdate : SessionRow → DBOp
  | profileInsert : String → DBOp
deriving DecidableEq, Repr

/-- Recogniser for profile inserts among the traced database writes. -/
def DBOp.isProfileInsert : DBOp → Bool
  | DBOp.profileInsert _ => true
  | DBOp.sessionUpdate _ => false

/-- Engine world for the stop scenario: whether the module-level
activeSession reference is still set, the in-memory counters of the run
(the loop holds them through its destructured stats object even after the
reference is cleared), the record-store contents, the sessions row, and
the ordered trace of database writes. -/
structure World where
  active : Bool
  stats : Stats
  store : List String
  session : SessionRow
  trace : List DBOp
deriving DecidableEq, Repr

/-- stopSession from src/bot/engine.ts: a no-op when no session is active;
otherwise it immediately clears the running flag, writes the terminal
sessions row (status, end timestamp, the counters at this very moment) and
clears the activeSession reference, all before the loop reaches its next
iteration boundary. -/
def stopSession (newStatus : String) (now : Nat) (w : World) : World :=
  if !w.active then w
  else
    let row : SessionRow :=
      { status := newStatus
        ended_at := some now
        profiles_viewed := w.stats.profilesViewed
        connections_sent := w.stats.connectionsSent
        follows_sent := w.stats.followsSent }
    { w with active := false, session := row, trace := w.trace ++ [.sessionUpdate row] }

/-- Effects of completing one non-skipped loop iteration in the stop
scenario: the counters move, the profile row is inserted and the counter
fields of the sessions row are updated (sessionQueries.update with the
counter fields only, so a previously written terminal status and end
timestamp survive). -/
def iterEffects (cfg : SessionConfig) (c : Candidate) (pd : ProfileData)
    (w : World) : World :=
  let stats1 : Stats := { w.stats with profilesViewed := w.stats.profilesViewed + 1 }
  let sr := scoreStep c pd cfg.keywords
  let connected :=
    cfg.enableConnect && (cfg.threshold ≤ (sr.score : Int)) &&
      sendConnectionRequest c.connPage
  let stats2 : Stats :=
    if connected then { stats1 with connectionsSent := stats1.connectionsSent + 1 }
    else stats1
  let followed :=
    cfg.enableFollow && (cfg.threshold ≤ (sr.score : Int)) &&
      followProfile c.followButton c.followErr
  let stats3 : Stats :=
    if followed then { stats2 with followsSent := stats2.followsSent + 1 }
    else stats2
  let row : SessionRow :=
    { w.session with
        profiles_viewed := stats3.profilesViewed
        connections_sent := stats3.connectionsSent
        follows_sent := stats3.followsSent }
  { w with
      stats := stats3
      store := w.store ++ [pd.linkedin_id]
      session := row
      trace := w.trace ++ [.profileInsert pd.linkedin_id, .sessionUpdate row] }

/-- The session loop with an external stop request arriving while the
visit of the k-th non-skipped candidate is in flight (the visit await is
the representative suspension point; a skipped candidate performs no
await, so no external event is observed inside its iteration). Mirrors
runSessionLoop together with stopSession: at each iteration boundary the
loop first reads the activeSession reference, and once it is cleared the
boundary read throws, the catch hands the error to stopSession (a no-op on
an inactive session) and the loop is done; when the stop fires during a
visit, the stop request runs to completion first (terminal write, state
cleared) and the in-flight iteration then finishes and performs its own
writes. A run that ends before the stop fires completes or fails as usual
at clock finClock. -/
def runLoopStop (cfg : SessionConfig) :
    World → List Candidate → Nat → Nat → Nat → List Nat → World
  | w, [], _, _, finClock, _ =>
    if w.active then stopSession "completed" finClock w else w
  | w, c :: cs, k, stopTime, finClock, times =>
    if !w.active then w
    else if (w.stats.profilesViewed : Int) ≥ cfg.maxProfiles then
      stopSession "completed" finClock w
    else if (times.headD 0 : Int) ≥ cfg.maxDuration * 60000 then
      stopSession "completed" finClock w
    else
      let pid := idOfUrl c.url
      if pid ≠ "" && w.store.contains pid then
        runLoopStop cfg w cs k stopTime finClock times.tail
      else
        let w1 := if k = 0 then stopSession "stopped" stopTime w else w
        match c.visit with
        | none => if k = 0 then w1 else stopSession "error" finClock w
        | some pd =>
          runLoopStop cfg (iterEffects cfg c pd w1) cs (k - 1) stopTime finClock
            times.tail

/-- The ordering the claim asserts for the database writes of a stopped
run: the terminal sessions write happens on loop exit, after the in-flight
action finished, hence after every profiles insert of the run. Stated from
the claim for comparison with the trace the code produces. -/
def terminalAfterInserts (trace : List DBOp) : Bool :=
  match trace with
  | [] => true
  | DBOp.sessionUpdate r :: rest =>
    if r.status ≠ "running" then rest.all (fun op => !op.isProfileInsert)
    else terminalAfterInserts rest
  | DBOp.profileInsert _ :: rest => terminalAfterInserts rest

/-! ## Concurrent start attempts (startSession in src/bot/engine.ts and
runScheduledSession in src/scheduler/jobs.ts) -/

/-- Program counter of one start attempt, segmented at its await points.
A scheduled attempt begins at precheck (the getSessionStatus guard of
runScheduledSession) and then awaits the login check before calling
startSession; a manual attempt begins at checkPt (the activeSession guard
at the top of startSession); loginWait is the suspension on
checkLinkedInLogin inside startSession, after which the attempt creates
the sessions row and installs the activeSession state. done true is a
successful start, done false a refusal (conflict, scheduled skip or
failed login). -/
inductive StartPC where
  | precheck
  | schedLoginWait
  | checkPt
  | loginWait
  | done : Bool → StartPC
deriving DecidableEq, Repr

/-- Shared state seen by interleaved start attempts: the
activeSession-running flag and the number of sessions rows created. -/
structure StartWorld where
  runningFlag : Bool
  sessions : Nat
  a : StartPC
  b : StartPC
deriving DecidableEq, Repr

/-- Advance one attempt by one atomic segment (the code between two await
points runs without interleaving on the single JavaScript thread). The
conflict guard reads the shared running flag; the commit segment, reached
only after the login await, creates the sessions row and sets the flag. -/
def startSeg (loggedIn : Bool) (running : Bool) (sessions : Nat) :
    StartPC → StartPC × Bool × Nat
  | .precheck =>
    if running then (.done false, running, sessions)
    else (.schedLoginWait, running, sessions)
  | .schedLoginWait =>
    if loggedIn then (.checkPt, running, sessions)
    else (.done false, running, sessions)
  | .checkPt =>
    if running then (.done false, running, sessions)
    else (.loginWait, running, sessions)
  | .loginWait =>
    if loggedIn then (.done true, true, sessions + 1)
    else (.done false, running, sessions)
  | .done r => (.done r, running, sessions)

/-- Advance the named attempt of the world by one segment. -/
def startStep (loggedIn : Bool) (w : StartWorld) (who : Bool) : StartWorld :=
  if who then
    let (pc, running, sessions) := startSeg loggedIn w.runningFlag w.sessions w.b
    { w with b := pc, runningFlag := running, sessions := sessions }
  else
    let (pc, running, sessions) := startSeg loggedIn w.runningFlag w.sessions w.a
    { w with a := pc, runningFlag := running, sessions := sessions }

/-- Run a schedule of interleaved segments, each entry naming the attempt
that runs next. -/
def execSched (loggedIn : Bool) : StartWorld → List Bool → StartWorld
  | w, [] => w
  | w, who :: rest => execSched loggedIn (startStep loggedIn w who) rest

/-! ## Start validation (control surface) and the sequential start path -/

/-- Engine-side state the start path mutates: whether a run is active and
how many sessions rows exist. -/
structure EngineState where
  running : Bool
  sessions : Nat
deriving DecidableEq, Repr

/-- Errors surfaced synchronously to the run-start caller. -/
inductive StartErr where
  | conflict
  | auth
  | validation
deriving DecidableEq, Repr

/-- Sequential semantics of startSession in src/bot/engine.ts: refuse with
a conflict when a session is already running, refuse with an auth error
when the login check fails, otherwise create the sessions row, install the
active session and return the new session id. -/
def startSessionFn (loggedIn : Bool) (st : EngineState) :
    Except StartErr Nat × EngineState :=
  if st.running then (.error .conflict, st)
  else if !loggedIn then (.error .auth, st)
  else (.ok (st.sessions + 1), { running := true, sessions := st.sessions + 1 })

/-- Modelled from the spec: the start-run control surface lives in
src/api/routes.ts, which is absent from the sources (only its callers and
its import sites are present). Per the spec, a configuration must pass
validation, meaning a non-empty keyword query and positive caps. -/
def validateStartConfig (cfg : SessionConfig) : Bool :=
  !(cfg.keywords == "") && (0 < cfg.maxProfiles) && (0 < cfg.maxDuration)

/-- Modelled from the spec: the start-run request handler of the absent
src/api/routes.ts rejects a configuration failing validation with a
ValidationError before any state change, and otherwise enters
startSession. -/
def routeStartSession (cfg : SessionConfig) (loggedIn : Bool) (st : EngineState) :
    Except StartErr Nat × EngineState :=
  if validateStartConfig cfg then startSessionFn loggedIn st
  else (.error .validation, st)

/-! ## Trigger scheduling (getNextScheduledTime in src/scheduler/jobs.ts) -/

/-- The schedules row, from scheduleQueries.get in src/db/sqlite.ts. -/
structure Schedule where
  enabled : Bool
  times : List String
  days : List String
deriving DecidableEq, Repr

/-- The day-name table of src/scheduler/jobs.ts (an unknown name is
undefined and filtered out). -/
def dayMap (d : String) : Option Nat :=
  if d = "sun" then some 0
  else if d = "mon" then some 1
  else if d = "tue" then some 2
  else if d = "wed" then some 3
  else if d = "thu" then some 4
  else if d = "fri" then some 5
  else if d = "sat" then some 6
  else none

/-- Minutes-of-day value of a configured time string, via the split on the
colon and the Number conversion of its first two parts, as in
getNextScheduledTime; a NaN component makes the scheduled date invalid and
the candidate is skipped (none). The value may exceed a day for an
out-of-range component, exactly as setHours rolls the date over. -/
def parseMin (t : String) : Option Nat :=
  let parts := strSplitOn t ":"
  match parts.get? 0, parts.get? 1 with
  | some hs, some ms =>
    match jsNumber hs, jsNumber ms with
    | some h, some m => some (h * 60 + m)
    | _, _ => none
  | _, _ => none

/-- Valid scheduled days of a schedule: lower-cased day names looked up in
the day table, undefined entries dropped, then sorted ascending with the
numeric comparator, as in getNextScheduledTime. -/
def scheduledDaysOf (s : Schedule) : List Nat :=
  sortByPre (fun a b => a ≤ b) (s.days.filterMap (fun d => dayMap (lowerStr d)))

/-- Scan the (sorted) time strings of one scheduled day, from the inner
loop of getNextScheduledTime: the first parseable time whose absolute
minute (day start plus minutes of day) lies strictly in the future wins. -/
def nextFromDay (times : List String) (base now : Nat) : Option Nat :=
  match times with
  | [] => none
  | t :: ts =>
    match parseMin t with
    | some v => if now < base + v then some (base + v) else nextFromDay ts base now
    | none => nextFromDay ts base now

/-- Scan the days-ahead offsets, from the outer loop of
getNextScheduledTime: the first offset whose day of week is scheduled and
which still has a future time yields the result. Absolute instants are
minutes; the day of week of absolute day d is d modulo 7 with day zero a
Sunday. -/
def scanDays (dows : List Nat) (times : List String) (nowDay now : Nat) :
    List Nat → Option Nat
  | [] => none
  | k :: ks =>
    if dows.contains ((nowDay + k) % 7) then
      match nextFromDay times ((nowDay + k) * 1440) now with
      | some v => some v
      | none => scanDays dows times nowDay now ks
    else scanDays dows times nowDay now ks

/-- Next scheduled fire instant, from getNextScheduledTime in
src/scheduler/jobs.ts: none when the rule is disabled, has no times or no
valid days; otherwise scan up to seven days ahead, each day trying the
time strings in their JavaScript default sort order, which compares the
strings lexicographically. The instant now is in absolute minutes. -/
def getNextScheduledTime (s : Schedule) (now : Nat) : Option Nat :=
  if !s.enabled || s.times.isEmpty then none
  else
    let dows := scheduledDaysOf s
    if dows.isEmpty then none
    else
      let sortedTimes := sortByPre strLexLe s.times
      scanDays dows sortedTimes (now / 1440) now (List.range 8)

/-- The fire instants a time list contributes on the day k days ahead:
empty when that day of week is not scheduled, otherwise one absolute
minute per parseable time. -/
def dayCands (dows : List Nat) (ts : List String) (nowDay k : Nat) : List Nat :=
  if dows.contains ((nowDay + k) % 7) then
    (ts.filterMap parseMin).map (fun v => (nowDay + k) * 1440 + v)
  else []

/-- The strictly future fire instants contributed by a window of
days-ahead offsets. -/
def futureCands (dows : List Nat) (ts : List String) (nowDay now : Nat)
    (ks : List Nat) : List Nat :=
  (ks.flatMap (dayCands dows ts nowDay)).filter (fun t => now < t)

/-- The future fire candidates of a schedule within the seven-day wrap
window, stated from the specification: every (day, time) pair with a
scheduled day of week and a parseable time of the rule, as an absolute
minute strictly in the future. -/
def fireCandidates (s : Schedule) (now : Nat) : List Nat :=
  futureCands (scheduledDaysOf s) s.times (now / 1440) now (List.range 8)

/-! ## Helper lemmas: the stable sort -/

theorem orderedInsert_mem {pre : α → α → Bool} {x a : α} :
    ∀ {l : List α}, a ∈ orderedInsert pre x l ↔ a = x ∨ a ∈ l := by
  intro l
  induction l with
  | nil => simp [orderedInsert]
  | cons y ys ih =>
    simp only [orderedInsert]
    split
    · simp
    · simp only [List.mem_cons, ih]
      tauto

theorem orderedInsert_perm {pre : α → α → Bool} (x : α) :
    ∀ (l : List α), (orderedInsert pre x l).Perm (x :: l) := by
  intro l
  induction l with
  | nil => simp [orderedInsert]
  | cons y ys ih =>
    simp only [orderedInsert]
    split
    · exact List.Perm.refl _
    · exact ((ih.cons y).trans (List.Perm.swap x y ys))

theorem sortByPre_perm {pre : α → α → Bool} :
    ∀ (l : List α), (sortByPre pre l).Perm l := by
  intro l
  induction l with
  | nil => simp [sortByPre]
  | cons x xs ih =>
    exact (orderedInsert_perm x (sortByPre pre xs)).trans (ih.cons x)

theorem orderedInsert_pairwise {pre : α → α → Bool}
    (htot : ∀ u v, pre u v = false → pre v u = true)
    (htrans : ∀ u v w, pre u v = true → pre v w = true → pre u w = true)
    (x : α) :
    ∀ {l : List α}, l.Pairwise (fun u v => pre u v = true) →
      (orderedInsert pre x l).Pairwise (fun u v => pre u v = true) := by
  intro l
  induction l with
  | nil => simp [orderedInsert]
  | cons y ys ih =>
    intro hp
    rcases List.pairwise_cons.mp hp with ⟨hy, hys⟩
    simp only [orderedInsert]
    split
    · rename_i hxy
      refine List.pairwise_cons.mpr ⟨?_, hp⟩
      intro z hz
      rcases List.mem_cons.mp hz with rfl | hz
      · exact hxy
      · exact htrans x y z hxy (hy z hz)
    · rename_i hxy
      refine List.pairwise_cons.mpr ⟨?_, ih hys⟩
      intro z hz
      rcases orderedInsert_mem.mp hz with hzx | hz
      · rw [hzx]
        have hfalse : pre x y = false := by simpa using hxy
        exact htot x y hfalse
      · exact hy z hz

theorem sortByPre_pairwise {pre : α → α → Bool}
    (htot : ∀ u v, pre u v = false → pre v u = true)
    (htrans : ∀ u v w, pre u v = true → pre v w = true → pre u w = true) :
    ∀ (l : List α), (sortByPre pre l).Pairwise (fun u v => pre u v = true) := by
  intro l
  induction l with
  | nil => simp [sortByPre]
  | cons x xs ih => exact orderedInsert_pairwise htot htrans x ih

theorem filter_orderedInsert_of_key {pre : α → α → Bool} {q : α → Bool}
    (hq : ∀ u v, q u = true → q v = true → pre u v = true) (x : α) :
    ∀ (l : List α), (orderedInsert pre x l).filter q =
      if q x = true then x :: l.filter q else l.filter q := by
  intro l
  induction l with
  | nil => simp [orderedInsert, List.filter_cons]
  | cons y ys ih =>
    simp only [orderedInsert]
    split
    · rw [List.filter_cons]
    · rename_i hxy
      by_cases hqy : q y = true
      · have hqx : q x = false := by
          by_contra hqx
          have hqx2 : q x = true := by simpa using hqx
          exact hxy (hq x y hqx2 hqy)
        simp [List.filter_cons, hqy, ih, hqx]
      · have hqy2 : q y = false := by simpa using hqy
        simp [List.filter_cons, hqy2, ih]

theorem filter_sortByPre_of_key {pre : α → α → Bool} {q : α → Bool}
    (hq : ∀ u v, q u = true → q v = true → pre u v = true) :
    ∀ (l : List α), (sortByPre pre l).filter q = l.filter q := by
  intro l
  induction l with
  | nil => simp [sortByPre]
  | cons x xs ih =>
    simp only [sortByPre]
    rw [filter_orderedInsert_of_key hq, List.filter_cons, ih]

/-! ## Helper lemmas: accumulation loops and the lexicographic order -/

theorem foldl_addIf_count {q : α → Bool} (w : Nat) :
    ∀ (l : List α) (n : Nat),
      l.foldl (fun acc k => if q k then acc + w else acc) n = n + w * l.countP q := by
  intro l
  induction l with
  | nil => intro n; simp
  | cons a l ih =>
    intro n
    simp only [List.foldl_cons, List.countP_cons]
    by_cases hqa : q a = true
    · rw [if_pos hqa, ih, hqa]
      simp only [if_pos]
      ring
    · have hqa2 : q a = false := by simpa using hqa
      rw [hqa2]
      simp only [Bool.false_eq_true, if_false, ih]
      ring

theorem foldl_keywordFold_score (text : String) :
    ∀ (l : List String) (n : Nat) (r : List String),
      (l.foldl (fallbackKeywordFold text) (n, r)).1 =
        n + 15 * l.countP (fun k => k ≠ "" && strIncludes text k) := by
  intro l
  induction l with
  | nil => intro n r; simp
  | cons a l ih =>
    intro n r
    simp only [List.foldl_cons, List.countP_cons, fallbackKeywordFold]
    cases hqa : (decide (a ≠ "") && strIncludes text a) with
    | true =>
      simp only [hqa, if_pos, ih]
      ring
    | false =>
      simp only [hqa, Bool.false_eq_true, if_false, ih]
      ring

theorem lexLt_asymm :
    ∀ (a b : List Char), lexLt a b = true → lexLt b a = false := by
  intro a
  induction a with
  | nil =>
    intro b h
    cases b with
    | nil => simp [lexLt] at h
    | cons y ys => simp [lexLt]
  | cons x xs ih =>
    intro b h
    cases b with
    | nil => simp [lexLt] at h
    | cons y ys =>
      simp only [lexLt] at h ⊢
      by_cases h1 : x.toNat < y.toNat
      · have h2 : ¬ y.toNat < x.toNat := by omega
        simp [h1, h2]
      · by_cases h2 : y.toNat < x.toNat
        · simp [h1, h2] at h
        · simp only [h1, h2, if_false] at h ⊢
          exact ih ys h

theorem lexLt_lt_of_lt_of_not_lt :
    ∀ (u s t : List Char), lexLt u s = true → lexLt t s = false → lexLt u t = true := by
  intro u
  induction u with
  | nil =>
    intro s t hus hts
    cases s with
    | nil => simp [lexLt] at hus
    | cons y ys =>
      cases t with
      | nil => simp [lexLt] at hts
      | cons z zs => simp [lexLt]
  | cons x xs ih =>
    intro s t hus hts
    cases s with
    | nil => simp [lexLt] at hus
    | cons y ys =>
      cases t with
      | nil => simp [lexLt] at hts
      | cons z zs =>
        simp only [lexLt] at hus hts ⊢
        by_cases hxy : x.toNat < y.toNat
        · by_cases hzy : z.toNat < y.toNat
          · simp [hzy] at hts
          · by_cases hyz : y.toNat < z.toNat
            · have hxz : x.toNat < z.toNat := by omega
              simp [hxz]
            · have hyz2 : y.toNat = z.toNat := by omega
              have hxz : x.toNat < z.toNat := by omega
              simp [hxz]
        · by_cases hyx : y.toNat < x.toNat
          · simp [hxy, hyx] at hus
          · have hxy2 : x.toNat = y.toNat := by omega
            simp only [hxy, hyx, if_false] at hus
            by_cases hzy : z.toNat < y.toNat
            · simp [hzy] at hts
            · by_cases hyz : y.toNat < z.toNat
              · have hxz : x.toNat < z.toNat := by omega
                simp [hxz]
              · have hxz1 : ¬ x.toNat < z.toNat := by omega
                have hxz2 : ¬ z.toNat < x.toNat := by omega
                simp only [hzy, hyz, if_false] at hts
                simp only [hxz1, hxz2, if_false]
                exact ih ys zs hus hts

theorem strLexLe_total :
    ∀ (s t : String), strLexLe s t = false → strLexLe t s = true := by
  intro s t h
  simp only [strLexLe, Bool.not_eq_false'] at h
  simp only [strLexLe, Bool.not_eq_true']
  exact lexLt_asymm _ _ h

theorem strLexLe_trans :
    ∀ (s t u : String), strLexLe s t = true → strLexLe t u = true →
      strLexLe s u = true := by
  intro s t u hst htu
  simp only [strLexLe, Bool.not_eq_true'] at hst htu ⊢
  by_contra h
  have h2 : lexLt u.data s.data = true := by simpa using h
  have h3 := lexLt_lt_of_lt_of_not_lt u.data s.data t.data h2 hst
  rw [h3] at htu
  exact absurd htu (by simp)

/-! ## Claim C6 -/

/-- Claim C6: when the Intelligence Service fails, fallbackScoring
computes, for every profile and keyword list, a score of 50 plus 15 per
matching keyword term found in the profile text fields, plus 10 when the
mutual-connection count exceeds 5, plus 5 when the total connection count
exceeds 500, capped at 100, with category high at 75 and medium at 50;
in particular a profile matching 2 of 3 query keywords with 6 mutual
connections scores 90 with category high. -/
theorem fallback_scoring_formula :
    (∀ (p : ProfileData) (kw : String),
      (fallbackScoring p kw).score =
        min 100 (50 +
          15 * (((strSplitOn (lowerStr kw) ",").map trimStr).countP
            (fun k => k ≠ "" && strIncludes
              (lowerStr (jsStr p.headline ++ " " ++ jsStr p.about ++ " " ++
                jsStr p.company)) k)) +
          (match p.mutual_connections with
           | some m => if 5 < m then 10 else 0
           | none => 0) +
          (match p.connection_count with
           | some c => if 500 < c then 5 else 0
           | none => 0)) ∧
      (fallbackScoring p kw).category =
        (if 75 ≤ (fallbackScoring p kw).score then "high"
         else if 50 ≤ (fallbackScoring p kw).score then "medium" else "low")) ∧
    (fallbackScoring
      { linkedin_id := "jane", linkedin_url := "u", name := "Jane"
        headline := some "Machine Learning Engineer", company := none
        location := none, about := none, connection_count := none
        mutual_connections := some 6 } "machine,learning,blockchain").score = 90 ∧
    (fallbackScoring
      { linkedin_id := "jane", linkedin_url := "u", name := "Jane"
        headline := some "Machine Learning Engineer", company := none
        location := none, about := none, connection_count := none
        mutual_connections := some 6 } "machine,learning,blockchain").category =
      "high" := by
  refine ⟨?_, by decide, by decide⟩
  intro p kw
  constructor
  · rcases hm : p.mutual_connections with _ | m <;>
      rcases hc : p.connection_count with _ | c <;>
        (simp only [fallbackScoring, hm, hc]
         repeat' split) <;>
          simp only [foldl_keywordFold_score] <;> omega
  · simp only [fallbackScoring]

/-! ## Helper lemmas: the discovery collection pass -/

theorem cardRelevance_closed (kwList : List String) (kwLow : String) (c : Card) :
    cardRelevance kwList kwLow c =
      10 * kwList.countP (fun kw => strIncludes (cardCombined c) kw) +
      (if strIncludes (cardCombined c) kwLow then 20 else 0) := by
  simp only [cardRelevance]
  rw [foldl_addIf_count]
  simp

theorem collectEntries_mono {kwList : List String} {kwLow : String} :
    ∀ (cards : List Card) (acc : List SearchEntry) (e : SearchEntry),
      e ∈ acc → e ∈ collectEntries kwList kwLow cards acc := by
  intro cards
  induction cards with
  | nil => intro acc e he; simpa [collectEntries] using he
  | cons c rest ih =>
    intro acc e he
    simp only [collectEntries]
    cases cardLinkOk c with
    | none => exact ih acc e he
    | some h =>
      simp only []
      split
      · exact ih acc e he
      · split
        · exact ih acc e he
        · exact ih _ e (List.mem_append_left _ he)

theorem collectEntries_origin {kwList : List String} {kwLow : String} :
    ∀ (cards : List Card) (acc : List SearchEntry) (e : SearchEntry),
      e ∈ collectEntries kwList kwLow cards acc →
      e ∈ acc ∨ ∃ c ∈ cards, ∃ h, cardLinkOk c = some h ∧
        e.url = cardFullUrl h ∧ e.relevance = cardRelevance kwList kwLow c ∧
        ¬(cardRelevance kwList kwLow c = 0 ∧ 1 < kwList.length) := by
  intro cards
  induction cards with
  | nil => intro acc e he; left; simpa [collectEntries] using he
  | cons c rest ih =>
    intro acc e he
    simp only [collectEntries] at he
    cases hlink : cardLinkOk c with
    | none =>
      rw [hlink] at he
      rcases ih acc e he with hacc | ⟨c2, hc2, rest2⟩
      · exact Or.inl hacc
      · exact Or.inr ⟨c2, List.mem_cons_of_mem c hc2, rest2⟩
    | some h =>
      rw [hlink] at he
      simp only [] at he
      by_cases hskip : (decide (cardRelevance kwList kwLow c = 0) &&
          decide (kwList.length > 1)) = true
      · rw [if_pos hskip] at he
        rcases ih acc e he with hacc | ⟨c2, hc2, rest2⟩
        · exact Or.inl hacc
        · exact Or.inr ⟨c2, List.mem_cons_of_mem c hc2, rest2⟩
      · rw [if_neg hskip] at he
        have hnoskip : ¬(cardRelevance kwList kwLow c = 0 ∧ 1 < kwList.length) := by
          intro ⟨h1, h2⟩
          exact hskip (by simp [h1, h2])
        by_cases hdup : (acc.any (fun e2 => e2.url == cardFullUrl h)) = true
        · rw [if_pos hdup] at he
          rcases ih acc e he with hacc | ⟨c2, hc2, rest2⟩
          · exact Or.inl hacc
          · exact Or.inr ⟨c2, List.mem_cons_of_mem c hc2, rest2⟩
        · rw [if_neg hdup] at he
          rcases ih _ e he with hacc | ⟨c2, hc2, rest2⟩
          · rcases List.mem_append.mp hacc with hacc2 | hnew
            · exact Or.inl hacc2
            · right
              refine ⟨c, List.mem_cons_self c rest, h, hlink, ?_, ?_, hnoskip⟩
              · rw [List.mem_singleton.mp hnew]
              · rw [List.mem_singleton.mp hnew]
          · exact Or.inr ⟨c2, List.mem_cons_of_mem c hc2, rest2⟩

set_option maxHeartbeats 1000000 in
theorem collectEntries_keeps {kwList : List String} {kwLow : String} :
    ∀ (cards : List Card) (acc : List SearchEntry) (c : Card) (h : String),
      c ∈ cards → cardLinkOk c = some h →
      (cardRelevance kwList kwLow c ≠ 0 ∨ kwList.length ≤ 1) →
      cardFullUrl h ∈ (collectEntries kwList kwLow cards acc).map SearchEntry.url := by
  intro cards
  induction cards with
  | nil => intro acc c h hc; exact absurd hc (List.not_mem_nil c)
  | cons c0 rest ih =>
    intro acc c h hc hlink hrel
    rcases List.mem_cons.mp hc with rfl | hc2
    · simp only [collectEntries, hlink]
      have hnoskip : (decide (cardRelevance kwList kwLow c = 0) &&
          decide (kwList.length > 1)) = false := by
        rcases hrel with h1 | h1
        · simp [h1]
        · have : ¬ (1 < kwList.length) := by omega
          simp [this]
      rw [hnoskip]
      simp only [Bool.false_eq_true, if_false]
      by_cases hdup : (acc.any (fun e2 => e2.url == cardFullUrl h)) = true
      · rw [if_pos hdup]
        rcases List.any_eq_true.mp hdup with ⟨e2, he2, heq⟩
        have heq2 : e2.url = cardFullUrl h := by simpa using heq
        exact List.mem_map.mpr ⟨e2, collectEntries_mono rest acc e2 he2, heq2⟩
      · rw [if_neg hdup]
        have hmem : (⟨cardFullUrl h, cardRelevance kwList kwLow c⟩ : SearchEntry) ∈
            acc ++ [(⟨cardFullUrl h, cardRelevance kwList kwLow c⟩ : SearchEntry)] := by
          simp
        have hmem2 := @collectEntries_mono kwList kwLow rest
          (acc ++ [(⟨cardFullUrl h, cardRelevance kwList kwLow c⟩ : SearchEntry)]) _ hmem
        exact List.mem_map.mpr ⟨_, hmem2, rfl⟩
    · cases hlink0 : cardLinkOk c0 with
      | none =>
        simp only [collectEntries, hlink0]
        exact ih acc c h hc2 hlink hrel
      | some h0 =>
        simp only [collectEntries, hlink0]
        split
        · exact ih acc c h hc2 hlink hrel
        · split
          · exact ih acc c h hc2 hlink hrel
          · exact ih _ c h hc2 hlink hrel

/-! ## Claim C7 -/

/-- Claim C7 (counterexample): the relevance weight the code assigns is
not +10 per DISTINCT query term: for the query whose two whitespace-split
terms coincide, a matching card receives weight 20 (one +10 per term
occurrence), while the formula of the claim yields 10. -/
theorem duplicate_term_weight_differs_from_distinct :
    (searchPeopleRanked "go go"
      [{ href := some "/in/a", name := "go dev", headline := "" }]).map
        SearchEntry.relevance = [20] ∧
    specDistinctRelevance "go go"
      { href := some "/in/a", name := "go dev", headline := "" } = 10 ∧
    (20 : Nat) ≠ 10 := by
  refine ⟨by decide, by decide, by decide⟩

/-- Claim C7 (amended): discovery assigns each admitted candidate a
relevance weight of +10 per occurrence of a query term in the
whitespace-split lower-cased query found in its combined display text
(a duplicated term counts once per occurrence) plus a +20 bonus for a
verbatim phrase match; zero-relevance candidates are discarded exactly
when the query has more than one term (single-term queries keep every
candidate with a usable link, up to URL deduplication); the returned
ranking is sorted descending by relevance weight with source order
preserved on ties. -/
theorem search_ranking_amended (keywords : String) (cards : List Card) :
    (searchPeopleRanked keywords cards).Pairwise
      (fun a b => b.relevance ≤ a.relevance) ∧
    (∀ r, (searchPeopleRanked keywords cards).filter
        (fun e => e.relevance == r) =
      (collectEntries (splitWs (lowerStr keywords)) (lowerStr keywords) cards []).filter
        (fun e => e.relevance == r)) ∧
    (searchPeopleRanked keywords cards).Perm
      (collectEntries (splitWs (lowerStr keywords)) (lowerStr keywords) cards []) ∧
    searchPeople keywords cards =
      (searchPeopleRanked keywords cards).map SearchEntry.url ∧
    (∀ e ∈ collectEntries (splitWs (lowerStr keywords)) (lowerStr keywords) cards [],
      ∃ c ∈ cards, ∃ h, cardLinkOk c = some h ∧ e.url = cardFullUrl h ∧
        e.relevance =
          10 * (splitWs (lowerStr keywords)).countP
            (fun kw => strIncludes (cardCombined c) kw) +
          (if strIncludes (cardCombined c) (lowerStr keywords) then 20 else 0)) ∧
    (∀ e ∈ collectEntries (splitWs (lowerStr keywords)) (lowerStr keywords) cards [],
      1 < (splitWs (lowerStr keywords)).length → e.relevance ≠ 0) ∧
    (∀ c ∈ cards, ∀ h, cardLinkOk c = some h →
      (cardRelevance (splitWs (lowerStr keywords)) (lowerStr keywords) c ≠ 0 ∨
        (splitWs (lowerStr keywords)).length ≤ 1) →
      cardFullUrl h ∈
        (collectEntries (splitWs (lowerStr keywords)) (lowerStr keywords) cards
          []).map SearchEntry.url) := by
  have htot : ∀ u v : SearchEntry, relPre u v = false → relPre v u = true := by
    intro u v h
    simp only [relPre, decide_eq_false_iff_not, not_le] at h
    simp only [relPre, decide_eq_true_eq]
    omega
  have htrans : ∀ u v w : SearchEntry,
      relPre u v = true → relPre v w = true → relPre u w = true := by
    intro u v w h1 h2
    simp only [relPre, decide_eq_true_eq] at h1 h2 ⊢
    omega
  refine ⟨?_, ?_, ?_, rfl, ?_, ?_, ?_⟩
  · have hp := sortByPre_pairwise htot htrans
      (collectEntries (splitWs (lowerStr keywords)) (lowerStr keywords) cards [])
    have : searchPeopleRanked keywords cards =
        sortByPre relPre
          (collectEntries (splitWs (lowerStr keywords)) (lowerStr keywords) cards []) :=
      rfl
    rw [this]
    refine List.Pairwise.imp ?_ hp
    intro a b hab
    simpa [relPre] using hab
  · intro r
    have hq : ∀ u v : SearchEntry, (u.relevance == r) = true →
        (v.relevance == r) = true → relPre u v = true := by
      intro u v hu hv
      have hu2 : u.relevance = r := by simpa using hu
      have hv2 : v.relevance = r := by simpa using hv
      simp [relPre, hu2, hv2]
    exact filter_sortByPre_of_key hq _
  · exact sortByPre_perm _
  · intro e he
    rcases collectEntries_origin cards [] e he with habs | ⟨c, hc, h, hlink, hurl, hrel, _⟩
    · exact absurd habs (List.not_mem_nil e)
    · exact ⟨c, hc, h, hlink, hurl, by rw [hrel, cardRelevance_closed]⟩
  · intro e he hlen
    rcases collectEntries_origin cards [] e he with habs | ⟨c, hc, h, hlink, hurl, hrel, hns⟩
    · exact absurd habs (List.not_mem_nil e)
    · intro h0
      exact hns ⟨by rw [← hrel]; exact h0, hlen⟩
  · intro c hc h hlink hrel
    exact collectEntries_keeps cards [] c h hc hlink hrel

/-- Claim C7 (witness): the amended ranking facts instantiated on the
query of the specification scenario and two concrete cards: the matching
candidate is admitted and is the only returned URL. -/
theorem search_ranking_amended_witness :
    "https://www.linkedin.com/in/jane" ∈
      (collectEntries (splitWs (lowerStr "product manager"))
        (lowerStr "product manager")
        [{ href := some "/in/jane?x=1", name := "Jane",
           headline := "Product Manager at X" },
         { href := some "/in/bob", name := "Bob", headline := "Chef" }]
        []).map SearchEntry.url ∧
    searchPeople "product manager"
      [{ href := some "/in/jane?x=1", name := "Jane",
         headline := "Product Manager at X" },
       { href := some "/in/bob", name := "Bob", headline := "Chef" }] =
      ["https://www.linkedin.com/in/jane"] := by
  have h := search_ranking_amended "product manager"
    [{ href := some "/in/jane?x=1", name := "Jane",
       headline := "Product Manager at X" },
     { href := some "/in/bob", name := "Bob", headline := "Chef" }]
  refine ⟨?_, by decide⟩
  have hkeep := h.2.2.2.2.2.2
  have hmem := hkeep
    { href := some "/in/jane?x=1", name := "Jane", headline := "Product Manager at X" }
    (by decide) "/in/jane?x=1" (by decide) (Or.inl (by decide))
  have hurl : cardFullUrl "/in/jane?x=1" = "https://www.linkedin.com/in/jane" := by
    decide
  rw [hurl] at hmem
  exact hmem

/-! ## Helper lemmas: counters of the session loop -/

theorem stepCandidate_shape (cfg : SessionConfig) (sid : Nat) (st : RunState)
    (c : Candidate) (pd : ProfileData) :
    ∃ row, (stepCandidate cfg sid st c pd).rows = st.rows ++ [row] ∧
      (stepCandidate cfg sid st c pd).stats.profilesViewed =
        st.stats.profilesViewed + 1 := by
  refine ⟨_, rfl, ?_⟩
  simp only [stepCandidate]
  split <;> split <;> rfl

theorem goPage_delta (cfg : SessionConfig) (sid : Nat) :
    ∀ (cs : List Candidate) (st : RunState) (times : List Nat),
      ∃ delta, (goPage cfg sid st cs times).state.rows = st.rows ++ delta ∧
        (goPage cfg sid st cs times).state.stats.profilesViewed =
          st.stats.profilesViewed + delta.length := by
  intro cs
  induction cs with
  | nil => intro st times; exact ⟨[], by simp [goPage, PageStep.state]⟩
  | cons c cs ih =>
    intro st times
    simp only [goPage]
    split
    · exact ⟨[], by simp [PageStep.state]⟩
    · split
      · exact ⟨[], by simp [PageStep.state]⟩
      · split
        · exact ih st times.tail
        · split
          · exact ⟨[], by simp [PageStep.state]⟩
          · rename_i pd hpd
            rcases stepCandidate_shape cfg sid st c pd with ⟨row, hrows, hview⟩
            rcases ih (stepCandidate cfg sid st c pd) times.tail with
              ⟨delta, hrows2, hview2⟩
            refine ⟨row :: delta, ?_, ?_⟩
            · rw [hrows2, hrows, List.append_assoc]
              rfl
            · rw [hview2, hview, List.length_cons]
              omega

theorem goPages_delta (cfg : SessionConfig) (sid : Nat) :
    ∀ (pages : List (List Candidate)) (st : RunState) (times : List Nat),
      ∃ delta, (goPages cfg sid st pages times).1.rows = st.rows ++ delta ∧
        (goPages cfg sid st pages times).1.stats.profilesViewed =
          st.stats.profilesViewed + delta.length := by
  intro pages
  induction pages with
  | nil => intro st times; exact ⟨[], by simp [goPages]⟩
  | cons p ps ih =>
    intro st times
    cases p with
    | nil => exact ⟨[], by simp [goPages]⟩
    | cons c cs =>
      simp only [goPages]
      cases hg : goPage cfg sid st (c :: cs) times with
      | exit st2 s =>
        rcases goPage_delta cfg sid (c :: cs) st times with ⟨delta, h1, h2⟩
        rw [hg] at h1 h2
        exact ⟨delta, h1, h2⟩
      | next st2 times2 =>
        rcases goPage_delta cfg sid (c :: cs) st times with ⟨delta, h1, h2⟩
        rw [hg] at h1 h2
        simp only [PageStep.state] at h1 h2
        rcases ih st2 times2 with ⟨delta2, h3, h4⟩
        refine ⟨delta ++ delta2, ?_, ?_⟩
        · simp only []
          rw [h3, h1, List.append_assoc]
        · simp only []
          rw [h4, h2, List.length_append]
          omega

theorem runLoop_delta (cfg : SessionConfig) (sid : Nat) (st : RunState)
    (urls : List Candidate) (pages : List (List Candidate)) (times : List Nat) :
    ∃ delta, (runLoop cfg sid st urls pages times).1.rows = st.rows ++ delta ∧
      (runLoop cfg sid st urls pages times).1.stats.profilesViewed =
        st.stats.profilesViewed + delta.length := by
  simp only [runLoop]
  cases hg : goPage cfg sid st urls times with
  | exit st2 s =>
    rcases goPage_delta cfg sid urls st times with ⟨delta, h1, h2⟩
    rw [hg] at h1 h2
    exact ⟨delta, h1, h2⟩
  | next st2 times2 =>
    rcases goPage_delta cfg sid urls st times with ⟨delta, h1, h2⟩
    rw [hg] at h1 h2
    simp only [PageStep.state] at h1 h2
    rcases goPages_delta cfg sid pages st2 times2 with ⟨delta2, h3, h4⟩
    refine ⟨delta ++ delta2, ?_, ?_⟩
    · rw [h3, h1, List.append_assoc]
    · rw [h4, h2, List.length_append]
      omega

theorem goPage_cap (cfg : SessionConfig) (sid : Nat) :
    ∀ (cs : List Candidate) (st : RunState) (times : List Nat),
      (st.stats.profilesViewed : Int) ≤ cfg.maxProfiles →
      ((goPage cfg sid st cs times).state.stats.profilesViewed : Int) ≤
        cfg.maxProfiles := by
  intro cs
  induction cs with
  | nil => intro st times h; simpa [goPage, PageStep.state] using h
  | cons c cs ih =>
    intro st times h
    simp only [goPage]
    split
    · simpa [PageStep.state] using h
    · split
      · simpa [PageStep.state] using h
      · rename_i hcap _
        have hlt : (st.stats.profilesViewed : Int) < cfg.maxProfiles := by
          omega
        split
        · exact ih st times.tail h
        · split
          · simpa [PageStep.state] using h
          · rename_i pd hpd
            apply ih
            rcases stepCandidate_shape cfg sid st c pd with ⟨row, _, hview⟩
            rw [hview]
            push_cast
            omega

theorem goPages_cap (cfg : SessionConfig) (sid : Nat) :
    ∀ (pages : List (List Candidate)) (st : RunState) (times : List Nat),
      (st.stats.profilesViewed : Int) ≤ cfg.maxProfiles →
      ((goPages cfg sid st pages times).1.stats.profilesViewed : Int) ≤
        cfg.maxProfiles := by
  intro pages
  induction pages with
  | nil => intro st times h; simpa [goPages] using h
  | cons p ps ih =>
    intro st times h
    cases p with
    | nil => simpa [goPages] using h
    | cons c cs =>
      simp only [goPages]
      cases hg : goPage cfg sid st (c :: cs) times with
      | exit st2 s =>
        have h2 := goPage_cap cfg sid (c :: cs) st times h
        rw [hg] at h2
        exact h2
      | next st2 times2 =>
        have h2 := goPage_cap cfg sid (c :: cs) st times h
        rw [hg] at h2
        exact ih st2 times2 h2

theorem runLoop_cap (cfg : SessionConfig) (sid : Nat) (st : RunState)
    (urls : List Candidate) (pages : List (List Candidate)) (times : List Nat) :
    (st.stats.profilesViewed : Int) ≤ cfg.maxProfiles →
    ((runLoop cfg sid st urls pages times).1.stats.profilesViewed : Int) ≤
      cfg.maxProfiles := by
  intro h
  simp only [runLoop]
  cases hg : goPage cfg sid st urls times with
  | exit st2 s =>
    have h2 := goPage_cap cfg sid urls st times h
    rw [hg] at h2
    exact h2
  | next st2 times2 =>
    have h2 := goPage_cap cfg sid urls st times h
    rw [hg] at h2
    exact goPages_cap cfg sid pages st2 times2 h2

/-! ## Claim C2 -/

/-- Claim C2: throughout a run with maxProfiles N, the visited counter
equals its starting value plus the number of persisted (non-skipped,
successfully visited) profiles, so it never decreases; whenever it is at
most N at a boundary it stays at most N for the whole run (so a run
started at zero performs at most N non-skipped visits); and a candidate
whose external identifier already exists in the record store is skipped
without incrementing the counter or touching any state. -/
theorem visited_counter_cap_invariant (cfg : SessionConfig) (sid : Nat)
    (st : RunState) (pages : List (List Candidate)) (times : List Nat) :
    (∀ urls, ∃ delta,
      (runLoop cfg sid st urls pages times).1.rows = st.rows ++ delta ∧
      (runLoop cfg sid st urls pages times).1.stats.profilesViewed =
        st.stats.profilesViewed + delta.length) ∧
    (∀ urls, (st.stats.profilesViewed : Int) ≤ cfg.maxProfiles →
      ((runLoop cfg sid st urls pages times).1.stats.profilesViewed : Int) ≤
        cfg.maxProfiles) ∧
    (∀ c cs, (st.stats.profilesViewed : Int) < cfg.maxProfiles →
      (times.headD 0 : Int) < cfg.maxDuration * 60000 →
      idOfUrl c.url ≠ "" → st.store.contains (idOfUrl c.url) = true →
      runLoop cfg sid st (c :: cs) pages times =
        runLoop cfg sid st cs pages times.tail) := by
  refine ⟨fun urls => runLoop_delta cfg sid st urls pages times,
    fun urls => runLoop_cap cfg sid st urls pages times, ?_⟩
  intro c cs hlt htime hid hstore
  have hcond : (decide (idOfUrl c.url ≠ "") &&
      st.store.contains (idOfUrl c.url)) = true := by
    rw [Bool.and_eq_true]
    exact ⟨decide_eq_true hid, hstore⟩
  have hgp : goPage cfg sid st (c :: cs) times = goPage cfg sid st cs times.tail := by
    simp only [goPage]
    rw [if_neg (not_le.mpr hlt), if_neg (not_le.mpr htime), if_pos hcond]
  simp only [runLoop, hgp]

/-- Claim C2 (witness): the counter and skip facts instantiated on a
concrete state whose store already contains the candidate identifier. -/
theorem visited_counter_cap_invariant_witness :
    runLoop
      { keywords := "x", threshold := 75, maxProfiles := 5, maxDuration := 60,
        minDelay := 0, maxDelay := 0, enableConnect := false, enableFollow := false }
      1
      { stats := ⟨0, 0, 0⟩, store := ["jane"], rows := [], dbCounters := ⟨0, 0, 0⟩ }
      [{ url := "https://www.linkedin.com/in/jane/", visit := none, ai := none,
         message := "",
         connPage := { err := false, connectButton := false, moreButton := false,
                       connectOption := false, addNoteButton := false,
                       sendButton := false, confirmButton := false },
         followButton := false, followErr := false }]
      [] [0] =
    runLoop
      { keywords := "x", threshold := 75, maxProfiles := 5, maxDuration := 60,
        minDelay := 0, maxDelay := 0, enableConnect := false, enableFollow := false }
      1
      { stats := ⟨0, 0, 0⟩, store := ["jane"], rows := [], dbCounters := ⟨0, 0, 0⟩ }
      [] [] [] := by
  have h := visited_counter_cap_invariant
    { keywords := "x", threshold := 75, maxProfiles := 5, maxDuration := 60,
      minDelay := 0, maxDelay := 0, enableConnect := false, enableFollow := false }
    1
    { stats := ⟨0, 0, 0⟩, store := ["jane"], rows := [], dbCounters := ⟨0, 0, 0⟩ }
    [] [0]
  exact h.2.2
    { url := "https://www.linkedin.com/in/jane/", visit := none, ai := none,
      message := "",
      connPage := { err := false, connectButton := false, moreButton := false,
                    connectOption := false, addNoteButton := false,
                    sendButton := false, confirmButton := false },
      followButton := false, followErr := false }
    [] (by decide) (by decide) (by decide) (by decide)

/-! ## Claim C5 -/

/-- Claim C5 (counterexample): a single failing visit is fatal to the
whole run. In a run whose first candidate's visit throws while a second,
perfectly visitable candidate is still queued, the loop aborts with
status error, no profile is persisted and the second candidate is never
processed — the visit failure was not downgraded to a skipped action. -/
theorem visit_failure_aborts_run :
    runLoop
      { keywords := "x", threshold := 75, maxProfiles := 5, maxDuration := 60,
        minDelay := 0, maxDelay := 0, enableConnect := false, enableFollow := false }
      1
      { stats := ⟨0, 0, 0⟩, store := [], rows := [], dbCounters := ⟨0, 0, 0⟩ }
      [{ url := "https://www.linkedin.com/in/bad", visit := none, ai := none,
         message := "",
         connPage := { err := false, connectButton := false, moreButton := false,
                       connectOption := false, addNoteButton := false,
                       sendButton := false, confirmButton := false },
         followButton := false, followErr := false },
       { url := "https://www.linkedin.com/in/good",
         visit := some
           { linkedin_id := "good", linkedin_url := "https://www.linkedin.com/in/good",
             name := "Good", headline := some "PM", company := none, location := none,
             about := none, connection_count := none, mutual_connections := none },
         ai := some { score := 80, reason := "ok", category := "high" },
         message := "",
         connPage := { err := false, connectButton := false, moreButton := false,
                       connectOption := false, addNoteButton := false,
                       sendButton := false, confirmButton := false },
         followButton := false, followErr := false }]
      [] [0, 0] =
    ({ stats := ⟨0, 0, 0⟩, store := [], rows := [], dbCounters := ⟨0, 0, 0⟩ },
      Status.error) := by
  decide

/-- Claim C5 (amended): failures of the connect and follow page
operations are caught inside the operation, reported as false, downgrade
that single action to not performed and never abort the run, which
continues with the next candidate; a failure of the visit operation,
however, propagates out of the loop and terminates the run with status
error. -/
theorem action_failures_downgraded (cfg : SessionConfig) (sid : Nat)
    (st : RunState) (pages : List (List Candidate)) (times : List Nat)
    (c : Candidate) (cs : List Candidate) (pd : ProfileData)
    (hlt : (st.stats.profilesViewed : Int) < cfg.maxProfiles)
    (htime : (times.headD 0 : Int) < cfg.maxDuration * 60000)
    (hns : (decide (idOfUrl c.url ≠ "") &&
      st.store.contains (idOfUrl c.url)) = false) :
    (c.visit = some pd →
      runLoop cfg sid st (c :: cs) pages times =
        runLoop cfg sid (stepCandidate cfg sid st c pd) cs pages times.tail) ∧
    (sendConnectionRequest c.connPage = false →
      (stepCandidate cfg sid st c pd).stats.connectionsSent =
        st.stats.connectionsSent ∧
      ∃ row, (stepCandidate cfg sid st c pd).rows = st.rows ++ [row] ∧
        (row.action_taken = some "viewed" ∨ row.action_taken = some "followed") ∧
        row.message_sent = none) ∧
    (followProfile c.followButton c.followErr = false →
      (stepCandidate cfg sid st c pd).stats.followsSent = st.stats.followsSent ∧
      ∃ row, (stepCandidate cfg sid st c pd).rows = st.rows ++ [row] ∧
        (row.action_taken = some "viewed" ∨ row.action_taken = some "connected")) ∧
    (c.visit = none →
      runLoop cfg sid st (c :: cs) pages times = (st, Status.error)) := by
  refine ⟨?_, ?_, ?_, ?_⟩
  · intro hv
    have hgp : goPage cfg sid st (c :: cs) times =
        goPage cfg sid (stepCandidate cfg sid st c pd) cs times.tail := by
      simp only [goPage]
      rw [if_neg (not_le.mpr hlt), if_neg (not_le.mpr htime)]
      rw [hns]
      simp only [Bool.false_eq_true, if_false, hv]
    simp only [runLoop, hgp]
  · intro hsend
    cases hb2 : (cfg.enableFollow &&
        decide (cfg.threshold ≤ ((scoreStep c pd cfg.keywords).score : Int)) &&
        followProfile c.followButton c.followErr) with
    | true =>
      constructor
      · simp [stepCandidate, hsend, hb2]
      · simp only [stepCandidate, hsend, Bool.and_false, hb2]
        refine ⟨_, rfl, Or.inr ?_, ?_⟩
        · simp only [Bool.false_eq_true, if_false, if_true]
          rw [if_neg (by decide), if_neg (by decide)]
        · simp
    | false =>
      constructor
      · simp [stepCandidate, hsend, hb2]
      · simp only [stepCandidate, hsend, Bool.and_false, hb2]
        refine ⟨_, rfl, Or.inl ?_, ?_⟩
        · simp only [Bool.false_eq_true, if_false]
          rw [if_neg (by decide)]
        · simp
  · intro hfol
    cases hb1 : (cfg.enableConnect &&
        decide (cfg.threshold ≤ ((scoreStep c pd cfg.keywords).score : Int)) &&
        sendConnectionRequest c.connPage) with
    | true =>
      constructor
      · simp [stepCandidate, hfol, hb1]
      · simp only [stepCandidate, hfol, Bool.and_false, hb1]
        refine ⟨_, rfl, Or.inr ?_⟩
        simp only [Bool.false_eq_true, if_false, if_true]
        rw [if_neg (by decide)]
    | false =>
      constructor
      · simp [stepCandidate, hfol, hb1]
      · simp only [stepCandidate, hfol, Bool.and_false, hb1]
        refine ⟨_, rfl, Or.inl ?_⟩
        simp only [Bool.false_eq_true, if_false]
        rw [if_neg (by decide)]
  · intro hv
    have hgp : goPage cfg sid st (c :: cs) times = .exit st .error := by
      simp only [goPage]
      rw [if_neg (not_le.mpr hlt), if_neg (not_le.mpr htime)]
      rw [hns]
      simp only [Bool.false_eq_true, if_false, hv]
    simp only [runLoop, hgp]

/-- Claim C5 (witness): the amended facts instantiated on a concrete
candidate whose connect and follow operations both fail. -/
theorem action_failures_downgraded_witness :
    (stepCandidate
      { keywords := "x", threshold := 75, maxProfiles := 5, maxDuration := 60,
        minDelay := 0, maxDelay := 0, enableConnect := true, enableFollow := true }
      1
      { stats := ⟨0, 0, 0⟩, store := [], rows := [], dbCounters := ⟨0, 0, 0⟩ }
      { url := "https://www.linkedin.com/in/good",
        visit := some
          { linkedin_id := "good", linkedin_url := "https://www.linkedin.com/in/good",
            name := "Good", headline := some "PM", company := none, location := none,
            about := none, connection_count := none, mutual_connections := none },
        ai := some { score := 80, reason := "ok", category := "high" },
        message := "hello",
        connPage := { err := true, connectButton := false, moreButton := false,
                      connectOption := false, addNoteButton := false,
                      sendButton := false, confirmButton := false },
        followButton := false, followErr := true }
      { linkedin_id := "good", linkedin_url := "https://www.linkedin.com/in/good",
        name := "Good", headline := some "PM", company := none, location := none,
        about := none, connection_count := none,
        mutual_connections := none }).stats.connectionsSent = 0 := by
  have h := action_failures_downgraded
    { keywords := "x", threshold := 75, maxProfiles := 5, maxDuration := 60,
      minDelay := 0, maxDelay := 0, enableConnect := true, enableFollow := true }
    1
    { stats := ⟨0, 0, 0⟩, store := [], rows := [], dbCounters := ⟨0, 0, 0⟩ }
    [] [0]
    { url := "https://www.linkedin.com/in/good",
      visit := some
        { linkedin_id := "good", linkedin_url := "https://www.linkedin.com/in/good",
          name := "Good", headline := some "PM", company := none, location := none,
          about := none, connection_count := none, mutual_connections := none },
      ai := some { score := 80, reason := "ok", category := "high" },
      message := "hello",
      connPage := { err := true, connectButton := false, moreButton := false,
                    connectOption := false, addNoteButton := false,
                    sendButton := false, confirmButton := false },
      followButton := false, followErr := true }
    []
    { linkedin_id := "good", linkedin_url := "https://www.linkedin.com/in/good",
      name := "Good", headline := some "PM", company := none, location := none,
      about := none, connection_count := none, mutual_connections := none }
    (by decide) (by decide) (by decide)
  exact (h.2.1 (by decide)).1

/-! ## Claim C9 -/

/-- Claim C9: the loop persists the score, the rationale, the action and
the message, but the category column is never written by
profileQueries.create and the loop never calls updateCategory, so the
persisted row of a candidate scoring 80 carries no category at all,
against the documented high/medium/low derivation. -/
theorem persisted_row_has_no_category :
    (runLoop
      { keywords := "x", threshold := 75, maxProfiles := 5, maxDuration := 60,
        minDelay := 0, maxDelay := 0, enableConnect := false, enableFollow := false }
      1
      { stats := ⟨0, 0, 0⟩, store := [], rows := [], dbCounters := ⟨0, 0, 0⟩ }
      [{ url := "https://www.linkedin.com/in/good",
         visit := some
           { linkedin_id := "good", linkedin_url := "https://www.linkedin.com/in/good",
             name := "Good", headline := some "PM", company := none, location := none,
             about := none, connection_count := none, mutual_connections := none },
         ai := some { score := 80, reason := "strong match", category := "high" },
         message := "",
         connPage := { err := false, connectButton := false, moreButton := false,
                       connectOption := false, addNoteButton := false,
                       sendButton := false, confirmButton := false },
         followButton := false, followErr := false }]
      [] [0]).1.rows =
    [{ linkedin_id := "good", score := some 80, score_reason := some "strong match",
       category := none, action_taken := some "viewed", message_sent := none,
       session_id := 1 }] := by
  decide

/-! ## Claim C10 -/

/-- Claim C10: sendConnectionRequest reports success whenever a Connect
control was clicked and no error was thrown, even when neither a Send
button nor a Send-now confirmation is ever located; consequently a run
over such a page records the candidate as connected and increments the
connections-sent counter without a confirmed send. -/
theorem connect_assumed_success_without_send_control :
    (∀ p : ConnPage, p.err = false → p.connectButton = true →
      sendConnectionRequest p = true) ∧
    (∀ p : ConnPage, p.err = false → p.connectButton = true →
      p.sendButton = false → p.confirmButton = false →
      sendConnectionRequest p = true ∧ sendControlFound p = false) ∧
    (runLoop
      { keywords := "x", threshold := 75, maxProfiles := 5, maxDuration := 60,
        minDelay := 0, maxDelay := 0, enableConnect := true, enableFollow := false }
      1
      { stats := ⟨0, 0, 0⟩, store := [], rows := [], dbCounters := ⟨0, 0, 0⟩ }
      [{ url := "https://www.linkedin.com/in/good",
         visit := some
           { linkedin_id := "good", linkedin_url := "https://www.linkedin.com/in/good",
             name := "Good", headline := some "PM", company := none, location := none,
             about := none, connection_count := none, mutual_connections := none },
         ai := some { score := 80, reason := "ok", category := "high" },
         message := "hello",
         connPage := { err := false, connectButton := true, moreButton := false,
                       connectOption := false, addNoteButton := false,
                       sendButton := false, confirmButton := false },
         followButton := false, followErr := false }]
      [] [0]).1.stats.connectionsSent = 1 ∧
    ((runLoop
      { keywords := "x", threshold := 75, maxProfiles := 5, maxDuration := 60,
        minDelay := 0, maxDelay := 0, enableConnect := true, enableFollow := false }
      1
      { stats := ⟨0, 0, 0⟩, store := [], rows := [], dbCounters := ⟨0, 0, 0⟩ }
      [{ url := "https://www.linkedin.com/in/good",
         visit := some
           { linkedin_id := "good", linkedin_url := "https://www.linkedin.com/in/good",
             name := "Good", headline := some "PM", company := none, location := none,
             about := none, connection_count := none, mutual_connections := none },
         ai := some { score := 80, reason := "ok", category := "high" },
         message := "hello",
         connPage := { err := false, connectButton := true, moreButton := false,
                       connectOption := false, addNoteButton := false,
                       sendButton := false, confirmButton := false },
         followButton := false, followErr := false }]
      [] [0]).1.rows.map ProfileRow.action_taken) = [some "connected"] ∧
    sendControlFound
      { err := false, connectButton := true, moreButton := false,
        connectOption := false, addNoteButton := false,
        sendButton := false, confirmButton := false } = false := by
  refine ⟨?_, ?_, by decide, by decide, by decide⟩
  · intro p herr hconn
    simp [sendConnectionRequest, afterConnectClick, herr, hconn]
  · intro p herr hconn hsend hconf
    refine ⟨?_, ?_⟩
    · simp [sendConnectionRequest, afterConnectClick, herr, hconn]
    · simp [sendControlFound, hsend, hconf]

/-- Claim C10 (witness): the assumed-success facts instantiated on the
concrete page state offering only a Connect button. -/
theorem connect_assumed_success_witness :
    sendConnectionRequest
      { err := false, connectButton := true, moreButton := false,
        connectOption := false, addNoteButton := false,
        sendButton := false, confirmButton := false } = true := by
  exact (connect_assumed_success_without_send_control.1
    { err := false, connectButton := true, moreButton := false,
      connectOption := false, addNoteButton := false,
      sendButton := false, confirmButton := false } (by decide) (by decide))

/-! ## Claim C1 -/

/-- Claim C1: the conflict guard of startSession refuses a second start
while a run is active and the scheduled path re-checks through the same
guard (second and third conjunct groups); but the guard is read before
the login await while the session is installed only after it, so two
start attempts interleaved check, check, commit, commit both succeed and
create two sessions rows — the claimed mutual exclusion of concurrent
start attempts fails on the code. -/
theorem interleaved_start_attempts_both_succeed :
    (execSched true
      { runningFlag := false, sessions := 0, a := .checkPt, b := .checkPt }
      [false, true, false, true] =
      { runningFlag := true, sessions := 2, a := .done true, b := .done true }) ∧
    (execSched true
      { runningFlag := false, sessions := 0, a := .checkPt, b := .checkPt }
      [false, false, true] =
      { runningFlag := true, sessions := 1, a := .done true, b := .done false }) ∧
    (execSched true
      { runningFlag := false, sessions := 0, a := .checkPt, b := .precheck }
      [false, false, true] =
      { runningFlag := true, sessions := 1, a := .done true, b := .done false }) := by
  refine ⟨by decide, by decide, by decide⟩

/-! ## Claim C3 -/

/-- Claim C3 (counterexample): an external stop request does not merely
set a flag honored at the next iteration boundary: stopSession persists
the terminal sessions row immediately, while the visit of the current
candidate is still in flight, and the finishing iteration then writes its
profile row and counters AFTER the terminal record. In the concrete
stopped run below the write trace therefore has a profile insert after a
terminal sessions write, falsifying the claimed ordering. -/
theorem stop_terminal_write_precedes_inserts :
    (runLoopStop
      { keywords := "x", threshold := 75, maxProfiles := 5, maxDuration := 60,
        minDelay := 0, maxDelay := 0, enableConnect := false, enableFollow := false }
      { active := true, stats := ⟨0, 0, 0⟩, store := [],
        session := { status := "running", ended_at := none, profiles_viewed := 0,
                     connections_sent := 0, follows_sent := 0 },
        trace := [] }
      [{ url := "https://www.linkedin.com/in/good",
         visit := some
           { linkedin_id := "good", linkedin_url := "https://www.linkedin.com/in/good",
             name := "Good", headline := some "PM", company := none, location := none,
             about := none, connection_count := none, mutual_connections := none },
         ai := some { score := 80, reason := "ok", category := "high" },
         message := "",
         connPage := { err := false, connectButton := false, moreButton := false,
                       connectOption := false, addNoteButton := false,
                       sendButton := false, confirmButton := false },
         followButton := false, followErr := false },
       { url := "https://www.linkedin.com/in/late",
         visit := some
           { linkedin_id := "late", linkedin_url := "https://www.linkedin.com/in/late",
             name := "Late", headline := none, company := none, location := none,
             about := none, connection_count := none, mutual_connections := none },
         ai := some { score := 80, reason := "ok", category := "high" },
         message := "",
         connPage := { err := false, connectButton := false, moreButton := false,
                       connectOption := false, addNoteButton := false,
                       sendButton := false, confirmButton := false },
         followButton := false, followErr := false }]
      0 999 5000 [0, 0]).trace =
    [DBOp.sessionUpdate
       { status := "stopped", ended_at := some 999, profiles_viewed := 0,
         connections_sent := 0, follows_sent := 0 },
     DBOp.profileInsert "good",
     DBOp.sessionUpdate
       { status := "stopped", ended_at := some 999, profiles_viewed := 1,
         connections_sent := 0, follows_sent := 0 }] ∧
    terminalAfterInserts
      [DBOp.sessionUpdate
        { status := "stopped", ended_at := some 999, profiles_viewed := 0,
          connections_sent := 0, follows_sent := 0 },
       DBOp.profileInsert "good",
       DBOp.sessionUpdate
        { status := "stopped", ended_at := some 999, profiles_viewed := 1,
          connections_sent := 0, follows_sent := 0 }] = false := by
  refine ⟨by decide, by decide⟩

/-- Claim C3 (amended): an external stop request arriving while a visit
is in flight immediately persists the terminal sessions row (status
stopped, end timestamp, the counters at that moment) and clears the
active-run state, returning the engine to Idle at once; the in-flight
iteration is still allowed to finish, persisting its profile row and its
counter update after the terminal record; the loop then exits at its next
boundary read and processes no further candidate. -/
theorem stop_request_immediate_persistence (cfg : SessionConfig) (w : World)
    (c : Candidate) (cs : List Candidate) (pd : ProfileData)
    (stopTime finClock : Nat) (times : List Nat)
    (hact : w.active = true)
    (hlt : (w.stats.profilesViewed : Int) < cfg.maxProfiles)
    (htime : (times.headD 0 : Int) < cfg.maxDuration * 60000)
    (hns : (decide (idOfUrl c.url ≠ "") &&
      w.store.contains (idOfUrl c.url)) = false)
    (hv : c.visit = some pd) :
    runLoopStop cfg w (c :: cs) 0 stopTime finClock times =
      iterEffects cfg c pd (stopSession "stopped" stopTime w) ∧
    (iterEffects cfg c pd (stopSession "stopped" stopTime w)).active = false ∧
    (iterEffects cfg c pd (stopSession "stopped" stopTime w)).session.status =
      "stopped" ∧
    (iterEffects cfg c pd (stopSession "stopped" stopTime w)).session.ended_at =
      some stopTime ∧
    (∃ r1 r2 : SessionRow,
      (iterEffects cfg c pd (stopSession "stopped" stopTime w)).trace =
        w.trace ++ [DBOp.sessionUpdate r1, DBOp.profileInsert pd.linkedin_id,
          DBOp.sessionUpdate r2] ∧
      r1.status = "stopped" ∧ r1.ended_at = some stopTime ∧
      r1.profiles_viewed = w.stats.profilesViewed ∧
      r2.status = "stopped" ∧ r2.ended_at = some stopTime ∧
      r2.profiles_viewed = w.stats.profilesViewed + 1) := by
  have hstop : stopSession "stopped" stopTime w =
      { active := false, stats := w.stats, store := w.store,
        session :=
          { status := "stopped", ended_at := some stopTime,
            profiles_viewed := w.stats.profilesViewed,
            connections_sent := w.stats.connectionsSent,
            follows_sent := w.stats.followsSent },
        trace := w.trace ++ [DBOp.sessionUpdate
          { status := "stopped", ended_at := some stopTime,
            profiles_viewed := w.stats.profilesViewed,
            connections_sent := w.stats.connectionsSent,
            follows_sent := w.stats.followsSent }] } := by
    simp [stopSession, hact]
  have hram : ∀ (cs2 : List Candidate) (w2 : World) (k2 s2 f2 : Nat)
      (t2 : List Nat), w2.active = false →
      runLoopStop cfg w2 cs2 k2 s2 f2 t2 = w2 := by
    intro cs2
    cases cs2 with
    | nil =>
      intro w2 k2 s2 f2 t2 h2
      rw [runLoopStop.eq_1, h2]
      simp
    | cons c2 cs3 =>
      intro w2 k2 s2 f2 t2 h2
      rw [runLoopStop.eq_2, h2]
      simp
  have hiter_active : ∀ w2 : World, (iterEffects cfg c pd w2).active = w2.active := by
    intro w2
    rfl
  have hstep : runLoopStop cfg w (c :: cs) 0 stopTime finClock times =
      iterEffects cfg c pd (stopSession "stopped" stopTime w) := by
    rw [runLoopStop.eq_2, hact]
    rw [if_neg (by simp), if_neg (not_le.mpr hlt), if_neg (not_le.mpr htime)]
    simp only [hns, Bool.false_eq_true, if_false, hv]
    simp only [eq_self_iff_true, if_true]
    apply hram
    rw [hiter_active, hstop]
  refine ⟨hstep, ?_, ?_, ?_, ?_⟩
  · rw [hiter_active, hstop]
  · rw [hstop]
    rfl
  · rw [hstop]
    rfl
  · refine
      ⟨⟨"stopped", some stopTime, w.stats.profilesViewed,
        w.stats.connectionsSent, w.stats.followsSent⟩,
       (iterEffects cfg c pd (stopSession "stopped" stopTime w)).session,
       ?_, rfl, rfl, rfl, ?_, ?_, ?_⟩
    · rw [hstop]
      simp [iterEffects, List.append_assoc]
    · rw [hstop]
      rfl
    · rw [hstop]
      rfl
    · rw [hstop]
      simp only [iterEffects]
      split <;> split <;> rfl

/-- Claim C3 (witness): the amended stop behavior instantiated on a
concrete mid-visit stop. -/
theorem stop_request_immediate_persistence_witness :
    runLoopStop
      { keywords := "x", threshold := 75, maxProfiles := 5, maxDuration := 60,
        minDelay := 0, maxDelay := 0, enableConnect := false, enableFollow := false }
      { active := true, stats := ⟨0, 0, 0⟩, store := [],
        session := { status := "running", ended_at := none, profiles_viewed := 0,
                     connections_sent := 0, follows_sent := 0 },
        trace := [] }
      [{ url := "https://www.linkedin.com/in/good",
         visit := some
           { linkedin_id := "good", linkedin_url := "https://www.linkedin.com/in/good",
             name := "Good", headline := some "PM", company := none, location := none,
             about := none, connection_count := none, mutual_connections := none },
         ai := some { score := 80, reason := "ok", category := "high" },
         message := "",
         connPage := { err := false, connectButton := false, moreButton := false,
                       connectOption := false, addNoteButton := false,
                       sendButton := false, confirmButton := false },
         followButton := false, followErr := false }]
      0 999 5000 [0] =
    iterEffects
      { keywords := "x", threshold := 75, maxProfiles := 5, maxDuration := 60,
        minDelay := 0, maxDelay := 0, enableConnect := false, enableFollow := false }
      { url := "https://www.linkedin.com/in/good",
        visit := some
          { linkedin_id := "good", linkedin_url := "https://www.linkedin.com/in/good",
            name := "Good", headline := some "PM", company := none, location := none,
            about := none, connection_count := none, mutual_connections := none },
        ai := some { score := 80, reason := "ok", category := "high" },
        message := "",
        connPage := { err := false, connectButton := false, moreButton := false,
                      connectOption := false, addNoteButton := false,
                      sendButton := false, confirmButton := false },
        followButton := false, followErr := false }
      { linkedin_id := "good", linkedin_url := "https://www.linkedin.com/in/good",
        name := "Good", headline := some "PM", company := none, location := none,
        about := none, connection_count := none, mutual_connections := none }
      (stopSession "stopped" 999
        { active := true, stats := ⟨0, 0, 0⟩, store := [],
          session := { status := "running", ended_at := none, profiles_viewed := 0,
                       connections_sent := 0, follows_sent := 0 },
          trace := [] }) := by
  exact (stop_request_immediate_persistence
    { keywords := "x", threshold := 75, maxProfiles := 5, maxDuration := 60,
      minDelay := 0, maxDelay := 0, enableConnect := false, enableFollow := false }
    { active := true, stats := ⟨0, 0, 0⟩, store := [],
      session := { status := "running", ended_at := none, profiles_viewed := 0,
                   connections_sent := 0, follows_sent := 0 },
      trace := [] }
    { url := "https://www.linkedin.com/in/good",
      visit := some
        { linkedin_id := "good", linkedin_url := "https://www.linkedin.com/in/good",
          name := "Good", headline := some "PM", company := none, location := none,
          about := none, connection_count := none, mutual_connections := none },
      ai := some { score := 80, reason := "ok", category := "high" },
      message := "",
      connPage := { err := false, connectButton := false, moreButton := false,
                    connectOption := false, addNoteButton := false,
                    sendButton := false, confirmButton := false },
      followButton := false, followErr := false }
    []
    { linkedin_id := "good", linkedin_url := "https://www.linkedin.com/in/good",
      name := "Good", headline := some "PM", company := none, location := none,
      about := none, connection_count := none, mutual_connections := none }
    999 5000 [0] (by decide) (by decide) (by decide) (by decide) (by decide)).1

/-! ## Claim C4 -/

/-- Claim C4: a start request whose configuration fails validation (an
empty keyword query, or a non-positive profile or duration cap) is
rejected with a ValidationError by the start control surface before any
state change: the engine state is returned untouched, no sessions row is
created and no browser interaction happens. The control surface itself
(src/api/routes.ts) is absent from the sources and is modelled from the
specification. -/
theorem invalid_config_rejected_before_state_change
    (cfg : SessionConfig) (loggedIn : Bool) (st : EngineState)
    (hbad : cfg.keywords = "" ∨ cfg.maxProfiles ≤ 0 ∨ cfg.maxDuration ≤ 0) :
    routeStartSession cfg loggedIn st = (.error .validation, st) := by
  have hval : validateStartConfig cfg = false := by
    simp only [validateStartConfig]
    rcases hbad with h | h | h
    · simp [h]
    · have h2 : ¬ (0 < cfg.maxProfiles) := by omega
      simp [h2]
    · have h2 : ¬ (0 < cfg.maxDuration) := by omega
      simp [h2]
  simp [routeStartSession, hval]

/-- Claim C4 (witness): a start request with an empty keyword query is
rejected as a validation error with the engine state unchanged. -/
theorem invalid_config_rejected_witness :
    routeStartSession
      { keywords := "", threshold := 75, maxProfiles := 5, maxDuration := 60,
        minDelay := 0, maxDelay := 0, enableConnect := false, enableFollow := false }
      true { running := false, sessions := 0 } =
    (.error .validation, { running := false, sessions := 0 }) := by
  exact invalid_config_rejected_before_state_change
    { keywords := "", threshold := 75, maxProfiles := 5, maxDuration := 60,
      minDelay := 0, maxDelay := 0, enableConnect := false, enableFollow := false }
    true { running := false, sessions := 0 } (Or.inl rfl)

/-! ## Helper lemmas: the scheduler scan -/

theorem dayMap_lt {d : String} {n : Nat} (h : dayMap d = some n) : n < 7 := by
  simp only [dayMap] at h
  repeat' split at h
  all_goals first
    | (cases h; omega)
    | cases h

theorem natContains_iff {l : List Nat} {a : Nat} :
    l.contains a = true ↔ a ∈ l := by
  simp [List.contains]

theorem nextFromDay_some :
    ∀ (ts : List String) (base now r : Nat),
      nextFromDay ts base now = some r →
      now < r ∧ ∃ v ∈ ts.filterMap parseMin, r = base + v := by
  intro ts
  induction ts with
  | nil => intro base now r h; simp [nextFromDay] at h
  | cons t ts ih =>
    intro base now r h
    simp only [nextFromDay] at h
    cases hp : parseMin t with
    | some v =>
      rw [hp] at h
      simp only [] at h
      by_cases hfut : now < base + v
      · rw [if_pos hfut] at h
        cases h
        refine ⟨hfut, v, ?_, rfl⟩
        rw [List.filterMap_cons, hp]
        exact List.mem_cons_self v _
      · rw [if_neg hfut] at h
        rcases ih base now r h with ⟨h1, v2, hv2, h3⟩
        refine ⟨h1, v2, ?_, h3⟩
        rw [List.filterMap_cons, hp]
        exact List.mem_cons_of_mem v hv2
    | none =>
      rw [hp] at h
      rcases ih base now r h with ⟨h1, v2, hv2, h3⟩
      refine ⟨h1, v2, ?_, h3⟩
      rw [List.filterMap_cons, hp]
      exact hv2

theorem nextFromDay_min :
    ∀ (ts : List String) (base now r : Nat),
      ts.Pairwise (fun t1 t2 => ∀ v1 v2, parseMin t1 = some v1 →
        parseMin t2 = some v2 → v1 ≤ v2) →
      nextFromDay ts base now = some r →
      ∀ v ∈ ts.filterMap parseMin, now < base + v → r ≤ base + v := by
  intro ts
  induction ts with
  | nil => intro base now r _ h; simp [nextFromDay] at h
  | cons t ts ih =>
    intro base now r hpair h v hv hfut
    rcases List.pairwise_cons.mp hpair with ⟨hhead, htail⟩
    simp only [nextFromDay] at h
    rw [List.filterMap_cons] at hv
    cases hp : parseMin t with
    | some v0 =>
      rw [hp] at h hv
      simp only [] at h
      by_cases hfut0 : now < base + v0
      · rw [if_pos hfut0] at h
        cases h
        rcases List.mem_cons.mp hv with rfl | hv2
        · omega
        · rcases List.mem_filterMap.mp hv2 with ⟨t2, ht2, hp2⟩
          have := hhead t2 ht2 v0 v hp hp2
          omega
      · rw [if_neg hfut0] at h
        rcases List.mem_cons.mp hv with rfl | hv2
        · omega
        · exact ih base now r htail h v hv2 hfut
    | none =>
      rw [hp] at h hv
      exact ih base now r htail h v hv hfut

theorem nextFromDay_none :
    ∀ (ts : List String) (base now : Nat),
      nextFromDay ts base now = none →
      ∀ v ∈ ts.filterMap parseMin, ¬ now < base + v := by
  intro ts
  induction ts with
  | nil => intro base now _ v hv; simp at hv
  | cons t ts ih =>
    intro base now h v hv
    simp only [nextFromDay] at h
    rw [List.filterMap_cons] at hv
    cases hp : parseMin t with
    | some v0 =>
      rw [hp] at h hv
      simp only [] at h
      by_cases hfut0 : now < base + v0
      · rw [if_pos hfut0] at h
        cases h
      · rw [if_neg hfut0] at h
        rcases List.mem_cons.mp hv with rfl | hv2
        · exact hfut0
        · exact ih base now h v hv2
    | none =>
      rw [hp] at h hv
      exact ih base now h v hv

theorem futureCands_cons (dows : List Nat) (ts : List String)
    (nowDay now k : Nat) (ks : List Nat) :
    futureCands dows ts nowDay now (k :: ks) =
      (dayCands dows ts nowDay k).filter (fun t => now < t) ++
        futureCands dows ts nowDay now ks := by
  simp [futureCands, List.flatMap_cons, List.filter_append]

theorem scanDays_none (dows : List Nat) (ts : List String) (nowDay now : Nat) :
    ∀ ks, scanDays dows ts nowDay now ks = none →
      futureCands dows ts nowDay now ks = [] := by
  intro ks
  induction ks with
  | nil => intro h; simp [futureCands]
  | cons k ks ih =>
    intro h
    simp only [scanDays] at h
    rw [futureCands_cons]
    by_cases hc : dows.contains ((nowDay + k) % 7) = true
    · rw [if_pos hc] at h
      cases hn : nextFromDay ts ((nowDay + k) * 1440) now with
      | some r => rw [hn] at h; cases h
      | none =>
        rw [hn] at h
        have h1 : (dayCands dows ts nowDay k).filter (fun t => now < t) = [] := by
          rw [List.filter_eq_nil_iff]
          intro a ha
          simp only [dayCands, hc, if_pos] at ha
          rcases List.mem_map.mp ha with ⟨v, hv, rfl⟩
          have := nextFromDay_none ts ((nowDay + k) * 1440) now hn v hv
          simpa using this
        rw [h1, ih h]
        rfl
    · rw [if_neg hc] at h
      have h1 : dayCands dows ts nowDay k = [] := by
        simp only [dayCands]
        rw [if_neg hc]
      rw [h1]
      simpa using ih h

theorem scanDays_some_min (dows : List Nat) (ts : List String) (nowDay now : Nat)
    (hvals : ∀ v ∈ ts.filterMap parseMin, v < 1440)
    (hpair : ts.Pairwise (fun t1 t2 => ∀ v1 v2, parseMin t1 = some v1 →
      parseMin t2 = some v2 → v1 ≤ v2)) :
    ∀ ks, ks.Pairwise (· < ·) →
      ∀ r, scanDays dows ts nowDay now ks = some r →
        r ∈ futureCands dows ts nowDay now ks ∧
        ∀ x ∈ futureCands dows ts nowDay now ks, r ≤ x := by
  intro ks
  induction ks with
  | nil => intro _ r h; simp [scanDays] at h
  | cons k ks ih =>
    intro hksp r h
    rcases List.pairwise_cons.mp hksp with ⟨hkhead, hktail⟩
    simp only [scanDays] at h
    rw [futureCands_cons]
    by_cases hc : dows.contains ((nowDay + k) % 7) = true
    · rw [if_pos hc] at h
      cases hn : nextFromDay ts ((nowDay + k) * 1440) now with
      | some r0 =>
        rw [hn] at h
        cases h
        rcases nextFromDay_some ts ((nowDay + k) * 1440) now _ hn with
          ⟨hfut, v0, hv0, rfl⟩
        constructor
        · apply List.mem_append_left
          rw [List.mem_filter]
          constructor
          · simp only [dayCands, hc, if_pos]
            exact List.mem_map.mpr ⟨v0, hv0, rfl⟩
          · simpa using hfut
        · intro x hx
          rcases List.mem_append.mp hx with hx1 | hx2
          · rcases List.mem_filter.mp hx1 with ⟨hx1a, hx1b⟩
            simp only [dayCands, hc, if_pos] at hx1a
            rcases List.mem_map.mp hx1a with ⟨v, hv, rfl⟩
            exact nextFromDay_min ts ((nowDay + k) * 1440) now _ hpair hn v hv
              (by simpa using hx1b)
          · rcases List.mem_filter.mp hx2 with ⟨hx2a, _⟩
            rcases List.mem_flatMap.mp hx2a with ⟨k2, hk2, hxk2⟩
            have hkk2 : k < k2 := hkhead k2 hk2
            simp only [dayCands] at hxk2
            by_cases hc2 : dows.contains ((nowDay + k2) % 7) = true
            · rw [if_pos hc2] at hxk2
              rcases List.mem_map.mp hxk2 with ⟨v2, _, rfl⟩
              have hv0lt : v0 < 1440 := hvals v0 hv0
              have : (nowDay + k) * 1440 + 1440 ≤ (nowDay + k2) * 1440 := by
                have : nowDay + k + 1 ≤ nowDay + k2 := by omega
                calc (nowDay + k) * 1440 + 1440 = (nowDay + k + 1) * 1440 := by ring
                  _ ≤ (nowDay + k2) * 1440 := Nat.mul_le_mul_right 1440 this
              omega
            · rw [if_neg hc2] at hxk2
              cases hxk2
      | none =>
        rw [hn] at h
        have h1 : (dayCands dows ts nowDay k).filter (fun t => now < t) = [] := by
          rw [List.filter_eq_nil_iff]
          intro a ha
          simp only [dayCands, hc, if_pos] at ha
          rcases List.mem_map.mp ha with ⟨v, hv, rfl⟩
          have := nextFromDay_none ts ((nowDay + k) * 1440) now hn v hv
          simpa using this
        rw [h1]
        simpa using ih hktail r h
    · rw [if_neg hc] at h
      have h1 : dayCands dows ts nowDay k = [] := by
        simp only [dayCands]
        rw [if_neg hc]
      rw [h1]
      simpa using ih hktail r h

theorem futureCands_perm {ts1 ts2 : List String}
    (h : (ts1.filterMap parseMin).Perm (ts2.filterMap parseMin))
    (dows : List Nat) (nowDay now : Nat) :
    ∀ ks, (futureCands dows ts1 nowDay now ks).Perm
      (futureCands dows ts2 nowDay now ks) := by
  intro ks
  apply List.Perm.filter
  induction ks with
  | nil => simp
  | cons k ks ih =>
    simp only [List.flatMap_cons]
    refine List.Perm.append ?_ ih
    simp only [dayCands]
    split
    · exact h.map _
    · exact List.Perm.refl _

/-! ## Claim C8 -/

/-- Claim C8 (counterexample): the scheduler sorts the configured time
strings with the default lexicographic string comparison, so for the
enabled rule with times 9:00 and 10:00 on a Sunday morning at 8:00 the
query returns 10:00, although 9:00 (absolute minute 540) is a strictly
sooner future fire candidate — the result is not the soonest pair. -/
theorem lexicographic_time_not_soonest :
    getNextScheduledTime
      { enabled := true, times := ["9:00", "10:00"], days := ["sun"] } 480 =
      some 600 ∧
    (540 : Nat) ∈ fireCandidates
      { enabled := true, times := ["9:00", "10:00"], days := ["sun"] } 480 ∧
    (540 : Nat) < 600 := by
  refine ⟨by decide, by decide, by decide⟩

/-- Claim C8 (amended): the next-fire-time query returns none when the
rule is disabled, has no times or no valid days; otherwise it scans the
seven-day wrap window trying the time strings in lexicographic string
order, so whenever the configured times parse as times of day (under 24
hours) and their lexicographic order agrees with their time-of-day order
(as with uniformly zero-padded HH:MM strings), the query returns exactly
the soonest future (day, time) fire instant; the Tuesday 10:00 example of
the specification yields Wednesday 09:00. -/
theorem next_fire_time_amended (s : Schedule) (now : Nat) :
    (s.enabled = false → getNextScheduledTime s now = none) ∧
    (s.times = [] → getNextScheduledTime s now = none) ∧
    (scheduledDaysOf s = [] → getNextScheduledTime s now = none) ∧
    (s.enabled = true → s.times ≠ [] → scheduledDaysOf s ≠ [] →
      (∀ t ∈ s.times, ∃ v, parseMin t = some v ∧ v < 1440) →
      (∀ t1 t2, t1 ∈ s.times → t2 ∈ s.times → strLexLe t1 t2 = true →
        ∀ v1 v2, parseMin t1 = some v1 → parseMin t2 = some v2 → v1 ≤ v2) →
      ∃ r, getNextScheduledTime s now = some r ∧ r ∈ fireCandidates s now ∧
        ∀ x ∈ fireCandidates s now, r ≤ x) ∧
    getNextScheduledTime
      { enabled := true, times := ["09:00"], days := ["mon", "wed"] }
      (2 * 1440 + 600) = some (3 * 1440 + 540) := by
  refine ⟨?_, ?_, ?_, ?_, by decide⟩
  · intro h
    simp [getNextScheduledTime, h]
  · intro h
    simp [getNextScheduledTime, h]
  · intro h
    simp [getNextScheduledTime, h]
  · intro hen hne hdne hv hmono
    have htsne : s.times.isEmpty = false := by
      cases hts : s.times with
      | nil => exact absurd hts hne
      | cons a l => rfl
    have hdne2 : (scheduledDaysOf s).isEmpty = false := by
      cases hds : scheduledDaysOf s with
      | nil => exact absurd hds hdne
      | cons a l => rfl
    have hunfold : getNextScheduledTime s now =
        scanDays (scheduledDaysOf s) (sortByPre strLexLe s.times) (now / 1440) now
          (List.range 8) := by
      simp [getNextScheduledTime, hen, htsne, hdne2]
    have hperm := @sortByPre_perm String strLexLe s.times
    have hvperm : ((sortByPre strLexLe s.times).filterMap parseMin).Perm
        (s.times.filterMap parseMin) := hperm.filterMap _
    have hvals : ∀ v ∈ (sortByPre strLexLe s.times).filterMap parseMin,
        v < 1440 := by
      intro v hv2
      rw [hvperm.mem_iff] at hv2
      rcases List.mem_filterMap.mp hv2 with ⟨t, ht, hp⟩
      rcases hv t ht with ⟨v2, hp2, hlt⟩
      rw [hp] at hp2
      injection hp2 with h3
      omega
    have hpairlex := sortByPre_pairwise strLexLe_total strLexLe_trans s.times
    have hpairval : (sortByPre strLexLe s.times).Pairwise
        (fun t1 t2 => ∀ v1 v2, parseMin t1 = some v1 →
          parseMin t2 = some v2 → v1 ≤ v2) :=
      List.Pairwise.imp_of_mem
        (fun ha hb hlex =>
          hmono _ _ (hperm.mem_iff.mp ha) (hperm.mem_iff.mp hb) hlex)
        hpairlex
    rcases List.exists_mem_of_ne_nil _ hdne with ⟨d, hd⟩
    have hd7 : d < 7 := by
      have hd2 : d ∈ s.days.filterMap (fun x => dayMap (lowerStr x)) := by
        have hp3 := @sortByPre_perm Nat (fun a b => a ≤ b)
          (s.days.filterMap (fun x => dayMap (lowerStr x)))
        simp only [scheduledDaysOf] at hd
        exact hp3.mem_iff.mp hd
      rcases List.mem_filterMap.mp hd2 with ⟨d0, _, hdm⟩
      exact dayMap_lt hdm
    have hk : ∃ k, 1 ≤ k ∧ k ≤ 7 ∧ (now / 1440 + k) % 7 = d := by
      refine ⟨(d + 7 - now / 1440 % 7 - 1) % 7 + 1, ?_, ?_, ?_⟩ <;> omega
    rcases hk with ⟨k, hk1, hk7, hkd⟩
    rcases List.exists_mem_of_ne_nil _ hne with ⟨t0, ht0⟩
    rcases hv t0 ht0 with ⟨v0, hp0, hv0lt⟩
    have hpermF := futureCands_perm hvperm (scheduledDaysOf s) (now / 1440) now
      (List.range 8)
    have hx : (now / 1440 + k) * 1440 + v0 ∈ futureCands (scheduledDaysOf s)
        (sortByPre strLexLe s.times) (now / 1440) now (List.range 8) := by
      simp only [futureCands]
      rw [List.mem_filter]
      constructor
      · apply List.mem_flatMap.mpr
        refine ⟨k, List.mem_range.mpr (by omega), ?_⟩
        simp only [dayCands, hkd]
        rw [if_pos (natContains_iff.mpr hd)]
        apply List.mem_map.mpr
        refine ⟨v0, ?_, rfl⟩
        rw [hvperm.mem_iff]
        exact List.mem_filterMap.mpr ⟨t0, ht0, hp0⟩
      · have h1440 := Nat.div_add_mod now 1440
        have h2 : now % 1440 < 1440 := Nat.mod_lt _ (by omega)
        simp only [decide_eq_true_eq]
        omega
    cases hscan : scanDays (scheduledDaysOf s) (sortByPre strLexLe s.times)
        (now / 1440) now (List.range 8) with
    | none =>
      exfalso
      have hF := scanDays_none _ _ _ _ _ hscan
      rw [hF] at hx
      exact absurd hx (List.not_mem_nil _)
    | some r =>
      have hmin := scanDays_some_min (scheduledDaysOf s)
        (sortByPre strLexLe s.times) (now / 1440) now hvals hpairval
        (List.range 8) (List.pairwise_lt_range 8) r hscan
      refine ⟨r, hunfold.trans hscan, ?_, ?_⟩
      · exact hpermF.mem_iff.mp hmin.1
      · intro x hxmem
        exact hmin.2 x (hpermF.mem_iff.mpr hxmem)

/-- Claim C8 (witness): the amended soonest-fire-time fact instantiated
on the schedule of the specification example, whose single time 09:00 is
well formed; the result is the minimal future candidate. -/
theorem next_fire_time_amended_witness :
    ∃ r, getNextScheduledTime
        { enabled := true, times := ["09:00"], days := ["mon", "wed"] }
        (2 * 1440 + 600) = some r ∧
      r ∈ fireCandidates
        { enabled := true, times := ["09:00"], days := ["mon", "wed"] }
        (2 * 1440 + 600) ∧
      ∀ x ∈ fireCandidates
        { enabled := true, times := ["09:00"], days := ["mon", "wed"] }
        (2 * 1440 + 600), r ≤ x := by
  have h := (next_fire_time_amended
    { enabled := true, times := ["09:00"], days := ["mon", "wed"] }
    (2 * 1440 + 600)).2.2.2.1
  apply h
  · rfl
  · decide
  · decide
  · intro t ht
    have ht2 : t = "09:00" := by
      rcases List.mem_cons.mp ht with h2 | h2
      · exact h2
      · exact absurd h2 (List.not_mem_nil t)
    rw [ht2]
    exact ⟨540, by decide, by decide⟩
  · intro t1 t2 h1 h2 hlex v1 v2 hp1 hp2
    have ht1 : t1 = "09:00" := by
      rcases List.mem_cons.mp h1 with h3 | h3
      · exact h3
      · exact absurd h3 (List.not_mem_nil t1)
    have ht2 : t2 = "09:00" := by
      rcases List.mem_cons.mp h2 with h3 | h3
      · exact h3
      · exact absurd h3 (List.not_mem_nil t2)
    rw [ht1] at hp1
    rw [ht2] at hp2
    have hv1 : v1 = 540 := by
      have : parseMin "09:00" = some 540 := by decide
      rw [this] at hp1
      injection hp1 with h4
      omega
    have hv2 : v2 = 540 := by
      have : parseMin "09:00" = some 540 := by decide
      rw [this] at hp2
      injection hp2 with h4
      omega
    omega

end LinkScope
